import Mathlib

/-!
Shallow embedding of the Pubky/mainline DHT RPC engine core
(src/common/mutable.rs and src/rpc.rs) for checking its
natural-language specification.

Bytes are modelled as Nat, byte strings as List Nat, 160-bit node ids as
byte lists, and machine i64 sequence numbers as Int (no arithmetic in the
source can overflow them in a way any claim depends on).  The external
crates ed25519_dalek and sha1_smol are not part of this repository; they
are abstracted behind the CryptoApi record of functions, and theorems that
need their guarantees take those guarantees as explicit hypotheses.
-/

/-- Bytes of an ASCII string: each character as its code point, which for
the ASCII strings appearing in the bencoded signable form coincides with
its UTF-8 byte. Models Rust String::into_bytes on ASCII content. -/
def strBytes (s : String) : List Nat :=
  s.data.map Char.toNat

/-- Decimal ASCII digits of a natural number, as bytes. -/
def decimalNat (n : Nat) : List Nat :=
  (Nat.toDigits 10 n).map Char.toNat

/-- Decimal ASCII rendering of an integer, as bytes; 45 is the minus sign.
Models Rust formatting of an i64 with the Display trait. -/
def decimalInt (i : Int) : List Nat :=
  match i with
  | Int.ofNat m => decimalNat m
  | Int.negSucc m => 45 :: decimalNat (m + 1)

/-- Node and target identifiers: 20 bytes in the source, byte lists here. -/
abbrev NodeId := List Nat

/-- Modelled from the spec: the ed25519_dalek and sha1_smol crates are
external dependencies of src/common/mutable.rs, not code of this
repository.  Their entry points used by the source are abstracted as a
record of functions; `verify pk msg sig` models
VerifyingKey::verify, `parseVerifyingKey` models VerifyingKey::try_from
(returning the canonical 32 key bytes on success), `parseSignature` models
Signature::from_slice, `sign`/`verifyingKey` model SigningKey::sign and
SigningKey::verifying_key, and `sha1` models the Sha1 digest. -/
structure CryptoApi where
  sha1 : List Nat → List Nat
  parseVerifyingKey : List Nat → Option (List Nat)
  parseSignature : List Nat → Option (List Nat)
  verify : List Nat → List Nat → List Nat → Bool
  verifyingKey : List Nat → List Nat
  sign : List Nat → List Nat → List Nat

/-- Bep 0044 mutable item, from src/common/mutable.rs. -/
structure MutableItem where
  target : NodeId
  key : List Nat
  seq : Int
  value : List Nat
  signature : List Nat
  salt : Option (List Nat)
  cas : Option Int
  deriving DecidableEq, Repr

/-- Error enum of src/common/mutable.rs. -/
inductive MutableError where
  | InvalidMutableSignature
  | InvalidMutablePublicKey
  deriving DecidableEq, Repr

deriving instance DecidableEq for Except

/-- Canonical signable encoding of src/common/mutable.rs
(fn encode_signable): optional salt block, then the seq and value blocks,
built exactly as the source builds its byte vector. -/
def encode_signable (seq : Int) (value : List Nat) (salt : Option (List Nat)) : List Nat :=
  let signable : List Nat := []
  let signable :=
    match salt with
    | some s => (signable ++ strBytes ("4:salt" ++ toString s.length ++ ":")) ++ s
    | none => signable
  let signable := signable ++ strBytes ("3:seqi" ++ toString seq ++ "e1:v" ++ toString value.length ++ ":")
  signable ++ value

/-- Signable form as the spec words it: an optional salt block
(the "4:salt" tag, the ASCII decimal salt length, a colon, the salt),
then "3:seqi", the decimal seq, "e1:v", the ASCII decimal value length,
a colon and the value, with no leading or trailing bytes.  Kept separate
from encode_signable so the two can be compared. -/
def encode_signable_spec (seq : Int) (value : List Nat) (salt : Option (List Nat)) : List Nat :=
  (match salt with
   | some s => strBytes ("4:salt") ++ decimalNat s.length ++ strBytes (":") ++ s
   | none => []) ++
  strBytes ("3:seqi") ++ decimalInt seq ++ strBytes ("e1:v") ++
  decimalNat value.length ++ strBytes (":") ++ value

/-- Target derivation of src/common/mutable.rs (MutableItem::target_from_key):
the digest of the public key followed by the optional salt. -/
def MutableItem.target_from_key (sha1 : List Nat → List Nat) (public_key : List Nat) (salt : Option (List Nat)) : NodeId :=
  let encoded := public_key
  let encoded :=
    match salt with
    | some s => encoded ++ s
    | none => encoded
  sha1 encoded

/-- Constructor of src/common/mutable.rs (MutableItem::new_signed_unchecked). -/
def MutableItem.new_signed_unchecked (sha1 : List Nat → List Nat) (key : List Nat) (signature : List Nat) (value : List Nat) (seq : Int) (salt : Option (List Nat)) : MutableItem :=
  { target := MutableItem.target_from_key sha1 key salt
    key := key
    value := value
    seq := seq
    signature := signature
    salt := salt
    cas := none }

/-- Constructor of src/common/mutable.rs (MutableItem::new): signs the
canonical signable with the signing key. -/
def MutableItem.new (api : CryptoApi) (signer : List Nat) (value : List Nat) (seq : Int) (salt : Option (List Nat)) : MutableItem :=
  let signable := encode_signable seq value salt
  let signature := api.sign signer signable
  MutableItem.new_signed_unchecked api.sha1 (api.verifyingKey signer) signature value seq salt

/-- Setter of src/common/mutable.rs (MutableItem::with_cas). -/
def MutableItem.with_cas (m : MutableItem) (cas : Int) : MutableItem :=
  { m with cas := some cas }

/-- Verifying constructor of src/common/mutable.rs
(MutableItem::from_dht_message): parse the key, parse the signature,
verify the signature over the canonical signable, and only then build the
item, carrying the supplied target through. -/
def MutableItem.from_dht_message (api : CryptoApi) (target : NodeId) (key : List Nat) (v : List Nat) (seq : Int) (signature : List Nat) (salt : Option (List Nat)) (cas : Option Int) : Except MutableError MutableItem :=
  match api.parseVerifyingKey key with
  | none => Except.error MutableError.InvalidMutablePublicKey
  | some pk =>
    match api.parseSignature signature with
    | none => Except.error MutableError.InvalidMutableSignature
    | some sg =>
      if api.verify pk (encode_signable seq v salt) sg then
        Except.ok { target := target, key := pk, value := v, seq := seq, signature := sg, salt := salt, cas := cas }
      else
        Except.error MutableError.InvalidMutableSignature

/-- Socket addresses, abstracted to an opaque numeric code. -/
abbrev Address := Nat

/-- Write tokens, abstracted to an opaque numeric code. -/
abbrev Token := Nat

/-- Modelled from the spec: the Node struct of the common module is not
under src.  A node holds an id, an address and an optional write token;
`fresh` abstracts the time based freshness of the token, `stale` the
exceeded unanswered ping count and `needs_ping` the elapsed refresh
interval (section 3 of the spec), all of which depend on a clock that the
model keeps abstract. -/
structure Node where
  id : NodeId
  address : Address
  token : Option Token
  fresh : Bool
  stale : Bool
  needs_ping : Bool
  deriving DecidableEq, Repr

/-- Modelled from the spec: Node::new holds no token yet. -/
def Node.new (id : NodeId) (address : Address) : Node :=
  { id := id, address := address, token := none, fresh := false, stale := false, needs_ping := false }

/-- Modelled from the spec: Node::with_token records a freshly received token. -/
def Node.with_token (n : Node) (t : Token) : Node :=
  { n with token := some t, fresh := true }

/-- Modelled from the spec: a node carries a valid token when a token is
present and still fresh. -/
def Node.valid_token (n : Node) : Bool :=
  n.token.isSome && n.fresh

/-- Modelled from the spec: KRPC error payload, a numeric code and a message. -/
structure ErrorSpecific where
  code : Int
  description : String
  deriving DecidableEq, Repr

/-- Modelled from the spec: request payloads of the wire codec (section 4.1),
with exactly the fields src/rpc.rs reads. -/
structure FindNodeRequestArguments where
  target : NodeId
  deriving DecidableEq, Repr

structure GetPeersRequestArguments where
  info_hash : NodeId
  deriving DecidableEq, Repr

structure GetValueRequestArguments where
  target : NodeId
  seq : Option Int
  salt : Option (List Nat)
  deriving DecidableEq, Repr

structure AnnouncePeerRequestArguments where
  info_hash : NodeId
  deriving DecidableEq, Repr

structure PutMutableRequestArguments where
  target : NodeId
  salt : Option (List Nat)
  deriving DecidableEq, Repr

structure PutImmutableRequestArguments where
  target : NodeId
  deriving DecidableEq, Repr

/-- Put request variants, as matched by Rpc::put in src/rpc.rs. -/
inductive PutRequestSpecific where
  | AnnouncePeer (args : AnnouncePeerRequestArguments)
  | PutMutable (args : PutMutableRequestArguments)
  | PutImmutable (args : PutImmutableRequestArguments)
  deriving DecidableEq, Repr

/-- Modelled from the spec: the Bep 44 write request envelope. -/
structure PutRequest where
  put_request_type : PutRequestSpecific
  deriving DecidableEq, Repr

/-- Request variants, as matched by Rpc::get in src/rpc.rs. -/
inductive RequestTypeSpecific where
  | Ping
  | FindNode (args : FindNodeRequestArguments)
  | GetPeers (args : GetPeersRequestArguments)
  | GetValue (args : GetValueRequestArguments)
  | Put (args : PutRequest)
  deriving DecidableEq, Repr

/-- Outbound request: requester id plus the request payload. -/
structure RequestSpecific where
  requester_id : NodeId
  request_type : RequestTypeSpecific
  deriving DecidableEq, Repr

/-- Modelled from the spec: response payloads of the wire codec with the
fields src/rpc.rs destructures. -/
structure PingResponseArguments where
  responder_id : NodeId
  deriving DecidableEq, Repr

structure FindNodeResponseArguments where
  responder_id : NodeId
  nodes : List Node
  deriving DecidableEq, Repr

structure GetPeersResponseArguments where
  responder_id : NodeId
  token : Option Token
  values : List Address
  nodes : List Node
  deriving DecidableEq, Repr

structure GetImmutableResponseArguments where
  responder_id : NodeId
  token : Option Token
  v : List Nat
  nodes : List Node
  deriving DecidableEq, Repr

structure GetMutableResponseArguments where
  responder_id : NodeId
  token : Option Token
  v : List Nat
  seq : Int
  sig : List Nat
  k : List Nat
  nodes : List Node
  deriving DecidableEq, Repr

structure NoMoreRecentValueResponseArguments where
  responder_id : NodeId
  seq : Int
  deriving DecidableEq, Repr

structure NoValuesResponseArguments where
  responder_id : NodeId
  token : Option Token
  nodes : List Node
  deriving DecidableEq, Repr

inductive ResponseSpecific where
  | Ping (args : PingResponseArguments)
  | FindNode (args : FindNodeResponseArguments)
  | GetPeers (args : GetPeersResponseArguments)
  | GetImmutable (args : GetImmutableResponseArguments)
  | GetMutable (args : GetMutableResponseArguments)
  | NoMoreRecentValue (args : NoMoreRecentValueResponseArguments)
  | NoValues (args : NoValuesResponseArguments)
  deriving DecidableEq, Repr

inductive MessageType where
  | Request (r : RequestSpecific)
  | Response (r : ResponseSpecific)
  | Error (e : ErrorSpecific)
  deriving DecidableEq, Repr

/-- Inbound KRPC message envelope, with the fields src/rpc.rs reads. -/
structure Message where
  transaction_id : Nat
  version : Option Nat
  requester_ip : Option Address
  read_only : Bool
  message_type : MessageType
  deriving DecidableEq, Repr

/-- Modelled from the spec: Message::get_author_id of the messages module
returns the responder id of a response, the requester id of a request, and
nothing for an error. -/
def Message.get_author_id (m : Message) : Option NodeId :=
  match m.message_type with
  | MessageType.Request r => some r.requester_id
  | MessageType.Response (ResponseSpecific.Ping a) => some a.responder_id
  | MessageType.Response (ResponseSpecific.FindNode a) => some a.responder_id
  | MessageType.Response (ResponseSpecific.GetPeers a) => some a.responder_id
  | MessageType.Response (ResponseSpecific.GetImmutable a) => some a.responder_id
  | MessageType.Response (ResponseSpecific.GetMutable a) => some a.responder_id
  | MessageType.Response (ResponseSpecific.NoMoreRecentValue a) => some a.responder_id
  | MessageType.Response (ResponseSpecific.NoValues a) => some a.responder_id
  | MessageType.Error _ => none

/-- Modelled from the spec: Message::get_closer_nodes returns the compact
closer nodes list carried by a response. -/
def Message.get_closer_nodes (m : Message) : Option (List Node) :=
  match m.message_type with
  | MessageType.Response (ResponseSpecific.FindNode a) => some a.nodes
  | MessageType.Response (ResponseSpecific.GetPeers a) => some a.nodes
  | MessageType.Response (ResponseSpecific.GetImmutable a) => some a.nodes
  | MessageType.Response (ResponseSpecific.GetMutable a) => some a.nodes
  | MessageType.Response (ResponseSpecific.NoValues a) => some a.nodes
  | _ => none

/-- Modelled from the spec: Message::get_token returns the responder id and
write token of a response that carries one. -/
def Message.get_token (m : Message) : Option (NodeId × Token) :=
  match m.message_type with
  | MessageType.Response (ResponseSpecific.GetPeers a) => a.token.map (fun t => (a.responder_id, t))
  | MessageType.Response (ResponseSpecific.GetImmutable a) => a.token.map (fun t => (a.responder_id, t))
  | MessageType.Response (ResponseSpecific.GetMutable a) => a.token.map (fun t => (a.responder_id, t))
  | MessageType.Response (ResponseSpecific.NoValues a) => a.token.map (fun t => (a.responder_id, t))
  | _ => none

/-- Value responses surfaced to the user, from src/rpc.rs (enum Response). -/
inductive Response where
  | Peers (values : List Address)
  | Immutable (v : List Nat)
  | Mutable (item : MutableItem)
  deriving DecidableEq, Repr

/-- Modelled from the spec: validate_immutable of the common module checks
that the target is the digest of the value (section 3). -/
def validate_immutable (api : CryptoApi) (v : List Nat) (target : NodeId) : Bool :=
  api.sha1 v == target

/-- Modelled from the spec: the KRPC socket (section 4.5), reduced to what
src/rpc.rs observes: a rolling 16 bit transaction id, the server mode flag
and the log of sent datagrams.  Actual UDP I/O and timeouts live outside
the model; the inbound datagram of a tick is an explicit argument of
Rpc.tick. -/
structure KrpcSocket where
  next_tid : Nat
  server_mode : Bool
  sent_requests : List (Address × RequestSpecific × Nat)
  sent_responses : List (Address × Nat × ResponseSpecific)
  sent_errors : List (Address × Nat × ErrorSpecific)
  deriving DecidableEq, Repr

/-- Modelled from the spec: allocate the next wrapping transaction id and
record the outbound request. -/
def KrpcSocket.request (s : KrpcSocket) (address : Address) (r : RequestSpecific) : Nat × KrpcSocket :=
  let tid := s.next_tid % 65536
  (tid, { s with next_tid := (s.next_tid + 1) % 65536, sent_requests := s.sent_requests ++ [(address, r, tid)] })

/-- Modelled from the spec: record an outbound response. -/
def KrpcSocket.response (s : KrpcSocket) (address : Address) (transaction_id : Nat) (r : ResponseSpecific) : KrpcSocket :=
  { s with sent_responses := s.sent_responses ++ [(address, transaction_id, r)] }

/-- Modelled from the spec: record an outbound error. -/
def KrpcSocket.error (s : KrpcSocket) (address : Address) (transaction_id : Nat) (e : ErrorSpecific) : KrpcSocket :=
  { s with sent_errors := s.sent_errors ++ [(address, transaction_id, e)] }

/-- Modelled from the spec: the routing table of section 4.3 as its local
id and set of nodes; the bucket structure is internal to the missing
routing table module and admission is an abstract parameter. -/
structure RoutingTable where
  id : NodeId
  nodes : List Node
  deriving DecidableEq, Repr

/-- Modelled from the spec: removal by id. -/
def RoutingTable.remove (rt : RoutingTable) (id : NodeId) : RoutingTable :=
  { rt with nodes := rt.nodes.filter (fun n => !(n.id == id)) }

/-- Insert a node into a closest-nodes list unless a node with the same id
is already there.  Modelled from the spec: closest-nodes sets de-duplicate
by id (section 4.6); the distance ordering is irrelevant to the claims. -/
def insertNodeById (ns : List Node) (n : Node) : List Node :=
  if ns.any (fun m => m.id == n.id) then ns else ns ++ [n]

/-- Iterative query state of section 4.7 of the spec; the module itself
(rpc/query.rs) is not under src, so the fields follow the spec:
target, request template, candidate frontier, visited addresses, inflight
transaction ids, responders, received value responses, address votes, and
the started and done flags.  The done flag abstracts the termination
condition of section 4.7 item 5, which depends on timeouts. -/
structure IterativeQuery where
  target : NodeId
  request : RequestSpecific
  candidates : List Node
  visited : List Address
  inflight_txids : List Nat
  responders : List Node
  responses : List Response
  address_votes : List Address
  started : Bool
  done : Bool
  deriving DecidableEq, Repr

/-- Modelled from the spec: a fresh query. -/
def IterativeQuery.new (target : NodeId) (request : RequestSpecific) : IterativeQuery :=
  { target := target, request := request, candidates := [], visited := [], inflight_txids := []
    responders := [], responses := [], address_votes := [], started := false, done := false }

/-- Modelled from the spec: whether this query owns the transaction id. -/
def IterativeQuery.inflight (q : IterativeQuery) (tid : Nat) : Bool :=
  q.inflight_txids.contains tid

/-- Modelled from the spec: accept a candidate, de-duplicated by id. -/
def IterativeQuery.add_candidate (q : IterativeQuery) (n : Node) : IterativeQuery :=
  { q with candidates := insertNodeById q.candidates n }

/-- Modelled from the spec: record a responding node (one that returned a
token), de-duplicated by id. -/
def IterativeQuery.add_responding_node (q : IterativeQuery) (n : Node) : IterativeQuery :=
  { q with responders := insertNodeById q.responders n }

/-- Modelled from the spec: tally a public address vote. -/
def IterativeQuery.add_address_vote (q : IterativeQuery) (a : Address) : IterativeQuery :=
  { q with address_votes := q.address_votes ++ [a] }

/-- Modelled from the spec: push a received value response. -/
def IterativeQuery.response (q : IterativeQuery) (a : Address) (r : Response) : IterativeQuery :=
  let _ := a
  { q with responses := q.responses ++ [r] }

/-- Modelled from the spec: send the query request to an address, marking
it visited and recording the inflight transaction id. -/
def IterativeQuery.visit (q : IterativeQuery) (socket : KrpcSocket) (address : Address) : IterativeQuery × KrpcSocket :=
  let ts := socket.request address q.request
  ({ q with visited := q.visited ++ [address], inflight_txids := q.inflight_txids ++ [ts.1] }, ts.2)

/-- Modelled from the spec: dispatch up to three parallel requests to the
nearest unvisited candidates and mark the query started (section 4.7
item 2). -/
def IterativeQuery.start (q : IterativeQuery) (socket : KrpcSocket) : IterativeQuery × KrpcSocket :=
  let next := (q.candidates.filter (fun n => !(q.visited.contains n.address))).take 3
  let qs := next.foldl (fun acc n => IterativeQuery.visit acc.1 acc.2 n.address) (q, socket)
  ({ qs.1 with started := true }, qs.2)

/-- Modelled from the spec: advancing the query reports whether the
termination condition of section 4.7 item 5 has been reached; the
condition depends on timeouts and is abstracted by the done flag. -/
def IterativeQuery.tick (q : IterativeQuery) : Bool :=
  q.done

/-- Modelled from the spec: the closest claimed nodes seen by the query. -/
def IterativeQuery.closestNodes (q : IterativeQuery) : List Node :=
  q.candidates

/-- Put errors surfaced by src/rpc.rs (PutError re-exported from the query
module; variants from section 4.8 of the spec). -/
inductive PutError where
  | PutQueryIsInflight (target : NodeId)
  | NoClosestNodes
  | ErrorResponse (error : ErrorSpecific)
  | Timeout
  | ConcurrencyConflict (seq : Int)
  deriving DecidableEq, Repr

/-- Put query state of section 4.8 of the spec (rpc/query.rs is not under
src): the target, the write request, the started flag, inflight
transaction ids, and the success and failure accounting. -/
structure PutQuery where
  target : NodeId
  request : PutRequestSpecific
  started : Bool
  inflight_txids : List Nat
  success_count : Nat
  errors : List ErrorSpecific
  deriving DecidableEq, Repr

/-- Modelled from the spec: a fresh pending put query. -/
def PutQuery.new (target : NodeId) (request : PutRequestSpecific) : PutQuery :=
  { target := target, request := request, started := false, inflight_txids := [], success_count := 0, errors := [] }

/-- Modelled from the spec: whether this put query owns the transaction id. -/
def PutQuery.inflight (q : PutQuery) (tid : Nat) : Bool :=
  q.inflight_txids.contains tid

/-- Modelled from the spec: count one storing node success. -/
def PutQuery.success (q : PutQuery) : PutQuery :=
  { q with success_count := q.success_count + 1 }

/-- Modelled from the spec: record one specific failure. -/
def PutQuery.error (q : PutQuery) (e : ErrorSpecific) : PutQuery :=
  { q with errors := q.errors ++ [e] }

/-- Modelled from the spec: send the write request to every given node that
has a token, marking each inflight (section 4.8 item 3); with no such
recipient the put fails with NoClosestNodes. -/
def PutQuery.start (q : PutQuery) (socket : KrpcSocket) (nodes : List Node) : Except PutError (PutQuery × KrpcSocket) :=
  let recipients := nodes.filter (fun n => n.token.isSome)
  if recipients.isEmpty then Except.error PutError.NoClosestNodes
  else
    let qs := recipients.foldl (fun acc n =>
      let ts := acc.2.request n.address { requester_id := [], request_type := RequestTypeSpecific.Put { put_request_type := q.request } }
      ({ acc.1 with inflight_txids := acc.1.inflight_txids ++ [ts.1] }, ts.2)) (q, socket)
    Except.ok ({ qs.1 with started := true }, qs.2)

/-- Modelled from the spec: a started put query is done when every inflight
recipient has succeeded or failed; it reports success when at least one
node stored, otherwise the first error encountered (section 4.8 items 4
and 5). -/
def PutQuery.tick (q : PutQuery) : Except PutError Bool :=
  if q.started then
    if q.inflight_txids.length ≤ q.success_count + q.errors.length then
      if 0 < q.success_count then Except.ok true
      else
        Except.error (match q.errors with
          | e :: _ => PutError.ErrorResponse e
          | [] => PutError.Timeout)
    else Except.ok false
  else Except.ok false

/-- Cached iterative query snapshot, from src/rpc.rs
(struct CachedIterativeQuery); the two f64 size estimates are carried as
abstract Nat measures since no claim concerns their numeric values. -/
structure CachedIterativeQuery where
  closest_responding_nodes : List Node
  dht_size_estimate : Nat
  responders_dht_size_estimate : Nat
  subnets : Nat
  is_find_node : Bool
  deriving DecidableEq, Repr

-- Association list helpers modelling the HashMap and LruCache containers.

/-- Lookup in an association list, first binding wins (HashMap access). -/
def lookupA {β : Type} (l : List (NodeId × β)) (k : NodeId) : Option β :=
  match l with
  | [] => none
  | kv :: rest => if kv.1 = k then some kv.2 else lookupA rest k

/-- Key membership (HashMap::contains_key). -/
def containsKeyA {β : Type} (l : List (NodeId × β)) (k : NodeId) : Bool :=
  (lookupA l k).isSome

/-- Remove all bindings of a key (HashMap::remove). -/
def eraseA {β : Type} (k : NodeId) : List (NodeId × β) → List (NodeId × β)
  | [] => []
  | kv :: rest => if kv.1 = k then eraseA k rest else kv :: eraseA k rest

/-- Insert or replace a binding (HashMap::insert). -/
def insertA {β : Type} (k : NodeId) (v : β) (l : List (NodeId × β)) : List (NodeId × β) :=
  (k, v) :: eraseA k l

/-- Replace the value bound to a key in place (HashMap::get_mut). -/
def replaceValA {β : Type} (k : NodeId) (v : β) (l : List (NodeId × β)) : List (NodeId × β) :=
  l.map (fun kv => if kv.1 = k then (kv.1, v) else kv)

/-- Keys are pairwise distinct, as in a HashMap. -/
def nodupKeysB {β : Type} : List (NodeId × β) → Bool
  | [] => true
  | kv :: rest => !(containsKeyA rest kv.1) && nodupKeysB rest

/-- Replace the first element satisfying a predicate
(HashMap::values_mut().find mutation). -/
def replaceFirstBy {α : Type} (p : α → Bool) (f : α → α) : List α → List α
  | [] => []
  | x :: xs => if p x then f x :: xs else x :: replaceFirstBy p f xs

/-- LruCache::put: most recent bindings sit at the front. -/
def lruPut {β : Type} (l : List (NodeId × β)) (k : NodeId) (v : β) : List (NodeId × β) :=
  (k, v) :: eraseA k l

/-- LruCache::pop_lru: drop the least recently inserted binding.  The
promotion that LruCache::get performs is not modelled; it only affects
which entry a full cache evicts, which no claim concerns. -/
def lruPopLru {β : Type} (l : List (NodeId × β)) : Option ((NodeId × β) × List (NodeId × β)) :=
  match l.getLast? with
  | some kv => some (kv, l.dropLast)
  | none => none

/-- Engine constants from src/rpc.rs, in seconds. -/
def REFRESH_TABLE_INTERVAL : Nat := 15 * 60

def PING_TABLE_INTERVAL : Nat := 5 * 60

def MAX_CACHED_ITERATIVE_QUERIES : Nat := 1000

def MAX_BUCKET_SIZE_K : Nat := 20

/-- Modelled from the spec: the operations src/rpc.rs calls on the missing
modules (routing table admission and closest lookup of section 4.3, the
two size estimators and subnets counter and take_until_secure of section
4.6, majority address election of section 4.11, the pluggable server
handler of section 4.12, and secure id derivation of section 4.2), kept
abstract as a record of parameters because their definitions involve
numerics and float arithmetic none of the claims depend on. -/
structure EngineParams where
  closest_secure : RoutingTable → NodeId → Nat → Nat → List Node
  routing_add : RoutingTable → Node → RoutingTable
  dht_size_estimate : List Node → Nat
  subnets_count : List Node → Nat
  take_until_secure : List Node → Nat → Nat → List Node
  best_address : List Address → Option Address
  server : RoutingTable → Address → RequestSpecific → MessageType × Option (List Address)
  id_from_ip : Address → NodeId
  id_valid_for : NodeId → Address → Bool

/-- Engine state of struct Rpc in src/rpc.rs.  Instants are modelled as
Nat seconds; the f64 estimator sums as Nat measures (no claim concerns
their values). -/
structure Rpc where
  bootstrap : List Address
  socket : KrpcSocket
  routing_table : RoutingTable
  last_table_refresh : Nat
  last_table_ping : Nat
  cached_iterative_queries : List (NodeId × CachedIterativeQuery)
  iterative_queries : List (NodeId × IterativeQuery)
  put_queries : List (NodeId × PutQuery)
  dht_size_estimates_sum : Nat
  responders_based_dht_size_estimates_sum : Nat
  responders_based_dht_size_estimates_count : Nat
  subnets_sum : Nat
  public_address : Option Address
  firewalled : Bool
  deriving DecidableEq, Repr

/-- Accessor Rpc::responders_based_dht_size_estimate of src/rpc.rs. -/
def Rpc.responders_based_dht_size_estimate (st : Rpc) : Nat :=
  st.responders_based_dht_size_estimates_sum / max st.responders_based_dht_size_estimates_count 1

/-- Accessor Rpc::average_subnets of src/rpc.rs. -/
def Rpc.average_subnets (st : Rpc) : Nat :=
  st.subnets_sum / max st.cached_iterative_queries.length 1

/-- Target extraction at the top of Rpc::get in src/rpc.rs; Ping and Put
requests have none and are ignored there. -/
def requestTheTarget (request : RequestTypeSpecific) : Option NodeId :=
  match request with
  | RequestTypeSpecific.FindNode a => some a.target
  | RequestTypeSpecific.GetPeers a => some a.info_hash
  | RequestTypeSpecific.GetValue a => some a.target
  | _ => none

/-- Target extraction at the top of Rpc::put in src/rpc.rs. -/
def putRequestTarget (request : PutRequestSpecific) : NodeId :=
  match request with
  | PutRequestSpecific.AnnouncePeer a => a.info_hash
  | PutRequestSpecific.PutMutable a => a.target
  | PutRequestSpecific.PutImmutable a => a.target

/-- Salt extraction in the else branch of Rpc::put in src/rpc.rs. -/
def putRequestSalt (request : PutRequestSpecific) : Option (List Nat) :=
  match request with
  | PutRequestSpecific.PutMutable a => a.salt
  | _ => none

/-- The seeding and start of a fresh iterative query inside Rpc::get of
src/rpc.rs: visit the bootstrap nodes when the routing table is short,
visit the explicit extra nodes, accept the closest routing table nodes and
the cached responding nodes as candidates, then start. -/
def Rpc.startNewIterativeQuery (P : EngineParams) (st : Rpc) (request : RequestTypeSpecific) (extra_nodes : Option (List Address)) (target : NodeId) : IterativeQuery × KrpcSocket :=
  let node_id := st.routing_table.id
  let query := IterativeQuery.new target { requester_id := node_id, request_type := request }
  let routing_table_closest := P.closest_secure st.routing_table target st.responders_based_dht_size_estimate st.average_subnets
  let qs :=
    if routing_table_closest.isEmpty || routing_table_closest.length < st.bootstrap.length then
      st.bootstrap.foldl (fun acc b => IterativeQuery.visit acc.1 acc.2 b) (query, st.socket)
    else (query, st.socket)
  let qs :=
    match extra_nodes with
    | some extra => extra.foldl (fun acc b => IterativeQuery.visit acc.1 acc.2 b) qs
    | none => qs
  let query2 := routing_table_closest.foldl IterativeQuery.add_candidate qs.1
  let query3 :=
    match lookupA st.cached_iterative_queries target with
    | some cached => cached.closest_responding_nodes.foldl IterativeQuery.add_candidate query2
    | none => query2
  IterativeQuery.start query3 qs.2

/-- Rpc::get of src/rpc.rs: return the responses seen so far when a query
for the target is already underway, otherwise seed a new iterative query
from bootstrap, extra nodes, the routing table and the cache, start it,
and insert it. -/
def Rpc.get (P : EngineParams) (st : Rpc) (request : RequestTypeSpecific) (extra_nodes : Option (List Address)) : Rpc × Option (List Response) :=
  match requestTheTarget request with
  | none => (st, none)
  | some target =>
    match lookupA st.iterative_queries target with
    | some query => (st, some query.responses)
    | none =>
      let qs2 := Rpc.startNewIterativeQuery P st request extra_nodes target
      ({ st with socket := qs2.2, iterative_queries := insertA target qs2.1 st.iterative_queries }, none)

/-- The cached nodes filter inside Rpc::put of src/rpc.rs: the cached
closest responding nodes of the target, provided the list is not empty
and at least one node carries a valid token. -/
def cachedGoodNodes (st : Rpc) (target : NodeId) : Option (List Node) :=
  match lookupA st.cached_iterative_queries target with
  | some cached =>
    let closest_nodes := cached.closest_responding_nodes
    if !closest_nodes.isEmpty && closest_nodes.any Node.valid_token then some closest_nodes else none
  | none => none

/-- Rpc::put of src/rpc.rs: refuse a second put for a target already
inflight; start immediately on cached responding nodes when one of them
carries a valid token; otherwise fall back to Rpc::get with a GetValue
request; insert the put query in the non-error cases. -/
def Rpc.put (P : EngineParams) (st : Rpc) (request : PutRequestSpecific) : Rpc × Option PutError :=
  let target := putRequestTarget request
  if containsKeyA st.put_queries target then
    (st, some (PutError.PutQueryIsInflight target))
  else
    let query := PutQuery.new target request
    match cachedGoodNodes st target with
    | some closest_nodes =>
      match PutQuery.start query st.socket closest_nodes with
      | Except.error e => (st, some e)
      | Except.ok qs =>
        ({ st with socket := qs.2, put_queries := insertA target qs.1 st.put_queries }, none)
    | none =>
      let salt := putRequestSalt request
      let st1 := (Rpc.get P st (RequestTypeSpecific.GetValue { target := target, seq := none, salt := salt }) none).1
      ({ st1 with put_queries := insertA target query st1.put_queries }, none)

/-- Effect of an inbound message on a put query that owns its transaction
id (the first match in Rpc::handle_response): a Ping response counts a
success, an error message records the failure, anything else is ignored. -/
def applyPutResponse (mt : MessageType) (q : PutQuery) : PutQuery :=
  match mt with
  | MessageType.Response (ResponseSpecific.Ping _) => q.success
  | MessageType.Error e => q.error e
  | _ => q

/-- Salt of the originating GetValue request, as read inside the GetMutable
arm of Rpc::handle_response. -/
def querySalt (q : IterativeQuery) : Option (List Nat) :=
  match q.request.request_type with
  | RequestTypeSpecific.GetValue a => a.salt
  | _ => none

/-- The candidate, responder and address vote updates applied to the
owning iterative query before the match on the message type inside
Rpc::handle_response: accept every returned closer node as a candidate,
record the sender as a responding node when the message carries a token,
and tally a requester ip vote. -/
def iterativeAdjust (sender : Address) (message : Message) (query : IterativeQuery) : IterativeQuery :=
  let q1 :=
    match message.get_closer_nodes with
    | some nodes => nodes.foldl IterativeQuery.add_candidate query
    | none => query
  let q2 :=
    match message.get_token with
    | some rt => q1.add_responding_node ((Node.new rt.1 sender).with_token rt.2)
    | none => q1
  match message.requester_ip with
  | some ip => q2.add_address_vote ip
  | none => q2

/-- The match on the message type inside the iterative branch of
Rpc::handle_response: a GetPeers response, a valid immutable record or a
valid mutable record yield the updated query and an emitted Response; an
invalid record or any other message type falls through to the routing
table update. -/
def responseOutcome (api : CryptoApi) (query : IterativeQuery) (updated : IterativeQuery) (sender : Address) (message : Message) : Option (IterativeQuery × Response) :=
  match message.message_type with
  | MessageType.Response (ResponseSpecific.GetPeers a) =>
    let r := Response.Peers a.values
    some (updated.response sender r, r)
  | MessageType.Response (ResponseSpecific.GetImmutable a) =>
    if validate_immutable api a.v query.target then
      let r := Response.Immutable a.v
      some (updated.response sender r, r)
    else none
  | MessageType.Response (ResponseSpecific.GetMutable a) =>
    match MutableItem.from_dht_message api query.target a.k a.v a.seq a.sig (querySalt query) none with
    | Except.ok item =>
      let r := Response.Mutable item
      some (updated.response sender r, r)
    | Except.error _ => none
  | _ => none

/-- Rpc::handle_response of src/rpc.rs: drop read only senders; route the
transaction id first to put queries (success or failure accounting), then
to the owning iterative query, updating candidates, responders and address
votes before the match on the message type; on an emitted value response
return early, otherwise add the author to the routing table. -/
def Rpc.handle_response (P : EngineParams) (api : CryptoApi) (st : Rpc) (sender : Address) (message : Message) : Rpc × Option (NodeId × Response) :=
  if message.read_only then (st, none)
  else
    if (st.put_queries.find? (fun kv => kv.2.inflight message.transaction_id)).isSome then
      ({ st with put_queries := replaceFirstBy (fun kv => kv.2.inflight message.transaction_id) (fun kv => (kv.1, applyPutResponse message.message_type kv.2)) st.put_queries }, none)
    else
      match st.iterative_queries.find? (fun kv => kv.2.inflight message.transaction_id) with
      | none => (st, none)
      | some kv =>
        let query := kv.2
        let q3 := iterativeAdjust sender message query
        match responseOutcome api query q3 sender message with
        | some qr =>
          ({ st with iterative_queries := replaceFirstBy (fun kv2 => kv2.2.inflight message.transaction_id) (fun kv2 => (kv2.1, qr.1)) st.iterative_queries }, some (query.target, qr.2))
        | none =>
          let rt :=
            match message.get_author_id with
            | some id => P.routing_add st.routing_table (Node.new id sender)
            | none => st.routing_table
          ({ st with iterative_queries := replaceFirstBy (fun kv2 => kv2.2.inflight message.transaction_id) (fun kv2 => (kv2.1, q3)) st.iterative_queries, routing_table := rt }, none)

/-- Whether a request payload is a find node request, as matched in
Rpc::tick and Rpc::cache_iterative_query. -/
def isFindNode (r : RequestTypeSpecific) : Bool :=
  match r with
  | RequestTypeSpecific.FindNode _ => true
  | _ => false

/-- Rpc::ping of src/rpc.rs: send a ping request carrying the local id. -/
def Rpc.ping (st : Rpc) (address : Address) : Rpc :=
  { st with socket := (st.socket.request address { requester_id := st.routing_table.id, request_type := RequestTypeSpecific.Ping }).2 }

/-- Rpc::check_address_votes_from_iterative_query of src/rpc.rs: adopt the
majority voted address; when it is new, mark the node firewalled and ping
the candidate address to confirm it. -/
def Rpc.check_address_votes_from_iterative_query (P : EngineParams) (st : Rpc) (query : IterativeQuery) : Rpc :=
  match P.best_address query.address_votes with
  | some new_address =>
    let st1 :=
      if st.public_address = some new_address then st
      else Rpc.ping { st with firewalled := true } new_address
    { st1 with public_address := some new_address }
  | none => st

/-- Rpc::cache_iterative_query of src/rpc.rs: evict the least recent entry
of a full cache (subtracting its estimator contributions), add the new
estimates to the running sums, compute the closest responding nodes with
take_until_secure, store the snapshot, and return those nodes. -/
def Rpc.cache_iterative_query (P : EngineParams) (st : Rpc) (query : IterativeQuery) : Rpc × List Node :=
  let st1 :=
    if MAX_CACHED_ITERATIVE_QUERIES ≤ st.cached_iterative_queries.length then
      match lruPopLru st.cached_iterative_queries with
      | some popped =>
        let c := popped.1.2
        { st with
          cached_iterative_queries := popped.2,
          dht_size_estimates_sum := st.dht_size_estimates_sum - c.dht_size_estimate,
          responders_based_dht_size_estimates_sum := st.responders_based_dht_size_estimates_sum - c.responders_dht_size_estimate,
          subnets_sum := st.subnets_sum - c.subnets,
          responders_based_dht_size_estimates_count :=
            if c.is_find_node then st.responders_based_dht_size_estimates_count
            else st.responders_based_dht_size_estimates_count - 1 }
      | none => st
    else st
  let dht_size_estimate := P.dht_size_estimate query.candidates
  let responders_dht_size_estimate := P.dht_size_estimate query.responders
  let subnets_count := P.subnets_count query.candidates
  let st2 := { st1 with
    dht_size_estimates_sum := st1.dht_size_estimates_sum + dht_size_estimate
    responders_based_dht_size_estimates_sum := st1.responders_based_dht_size_estimates_sum + responders_dht_size_estimate
    subnets_sum := st1.subnets_sum + subnets_count }
  let closest_responding_nodes := P.take_until_secure query.responders st2.responders_based_dht_size_estimate st2.average_subnets
  let entry : CachedIterativeQuery :=
    { closest_responding_nodes := closest_responding_nodes,
      dht_size_estimate := dht_size_estimate,
      responders_dht_size_estimate := responders_dht_size_estimate,
      subnets := subnets_count,
      is_find_node := isFindNode query.request.request_type }
  let st3 := { st2 with cached_iterative_queries := lruPut st2.cached_iterative_queries query.target entry }
  (st3, closest_responding_nodes)

/-- Rpc::handle_iterative_query of src/rpc.rs: address vote check, then
cache, returning the closest responding nodes. -/
def Rpc.handle_iterative_query (P : EngineParams) (st : Rpc) (query : IterativeQuery) : Rpc × List Node :=
  Rpc.cache_iterative_query P (Rpc.check_address_votes_from_iterative_query P st query) query

/-- Rpc::populate of src/rpc.rs: self lookup to fill the routing table. -/
def Rpc.populate (P : EngineParams) (st : Rpc) : Rpc :=
  (Rpc.get P st (RequestTypeSpecific.FindNode { target := st.routing_table.id }) none).1

/-- Rpc::periodic_node_maintainance of src/rpc.rs: bootstrap an empty
table; every fifteen minutes flip adaptive server mode (when not
firewalled) and refresh; every five minutes drop stale nodes and ping
the ones due for refresh. -/
def Rpc.periodic_node_maintainance (P : EngineParams) (st : Rpc) (now : Nat) : Rpc :=
  let st1 := if st.routing_table.nodes.isEmpty then Rpc.populate P st else st
  let st2 :=
    if REFRESH_TABLE_INTERVAL < now - st1.last_table_refresh then
      let s0 := { st1 with last_table_refresh := now }
      let s1 :=
        if !s0.socket.server_mode && !s0.firewalled then { s0 with socket := { s0.socket with server_mode := true } }
        else s0
      Rpc.populate P s1
    else st1
  if PING_TABLE_INTERVAL < now - st2.last_table_ping then
    let s0 := { st2 with last_table_ping := now }
    s0.routing_table.nodes.foldl (fun acc n =>
      if n.stale then { acc with routing_table := acc.routing_table.remove n.id }
      else if n.needs_ping then Rpc.ping acc n.address
      else acc) s0
  else st2

/-- Rpc::handle_request of src/rpc.rs: in server mode dispatch the
pluggable handler result (send a response or error, or feed a follow up
put or get request back into the engine, ignoring pings); then, when a
ping arrives from our own advertised external address, clear the
firewalled flag and, if the local id is not secure for that address,
regenerate the id, launch a lookup for it and rebuild the routing table. -/
def Rpc.handle_request (P : EngineParams) (st : Rpc) (sender : Address) (transaction_id : Nat) (request_specific : RequestSpecific) : Rpc :=
  let is_ping :=
    match request_specific.request_type with
    | RequestTypeSpecific.Ping => true
    | _ => false
  let st1 :=
    if st.socket.server_mode then
      match P.server st.routing_table sender request_specific with
      | (MessageType.Error e, _) => { st with socket := st.socket.error sender transaction_id e }
      | (MessageType.Response r, _) => { st with socket := st.socket.response sender transaction_id r }
      | (MessageType.Request req, extra_nodes) =>
        match req.request_type with
        | RequestTypeSpecific.Ping => st
        | RequestTypeSpecific.Put pr => (Rpc.put P st pr.put_request_type).1
        | other => (Rpc.get P st other extra_nodes).1
    else st
  match st1.public_address with
  | some our_address =>
    if sender == our_address && is_ping then
      let st2 := { st1 with firewalled := false }
      if !(P.id_valid_for st2.routing_table.id our_address) then
        let new_id := P.id_from_ip our_address
        let st3 := (Rpc.get P st2 (RequestTypeSpecific.FindNode { target := new_id }) none).1
        { st3 with routing_table := { id := new_id, nodes := [] } }
      else st2
    else st1
  | none => st1

/-- Tick report of src/rpc.rs (struct RpcTickReport). -/
structure RpcTickReport where
  done_get_queries : List NodeId
  done_put_queries : List (NodeId × Option PutError)
  done_find_node_queries : List (NodeId × List Node)
  query_response : Option (NodeId × Response)
  deriving DecidableEq, Repr

/-- One step of the done get cleanup loop of Rpc::tick (src/rpc.rs lines
267 to 280): remove the finished iterative query, hand it to
handle_iterative_query, bump the responders estimate count, and start a
pending put query for the same target on the closest responding nodes,
collecting a failed put if the start errors. -/
def Rpc.handleDoneGet (P : EngineParams) (st : Rpc) (id : NodeId) : Rpc × Option (NodeId × Option PutError) :=
  match lookupA st.iterative_queries id with
  | none => (st, none)
  | some query =>
    let st1 := { st with iterative_queries := eraseA id st.iterative_queries }
    let sr := Rpc.handle_iterative_query P st1 query
    let st2 := { sr.1 with responders_based_dht_size_estimates_count := sr.1.responders_based_dht_size_estimates_count + 1 }
    match lookupA st2.put_queries id with
    | none => (st2, none)
    | some put_query =>
      match PutQuery.start put_query st2.socket sr.2 with
      | Except.ok qs => ({ st2 with socket := qs.2, put_queries := replaceValA id qs.1 st2.put_queries }, none)
      | Except.error e => (st2, some (id, some e))

/-- The done get cleanup loop of Rpc::tick over all finished get queries,
collecting the put queries that failed to start. -/
def Rpc.handleDoneGets (P : EngineParams) (st : Rpc) : List NodeId → Rpc × List (NodeId × Option PutError)
  | [] => (st, [])
  | id :: rest =>
    let sr := Rpc.handleDoneGet P st id
    let r2 := Rpc.handleDoneGets P sr.1 rest
    (r2.1, (match sr.2 with
      | some x => [x]
      | none => []) ++ r2.2)

/-- One step of the done find node cleanup loop of Rpc::tick: remove the
query, run the address vote check and cache it; a put query is never
started here. -/
def Rpc.handleDoneFindNode (P : EngineParams) (st : Rpc) (id : NodeId) : Rpc :=
  match lookupA st.iterative_queries id with
  | none => st
  | some query =>
    let st1 := { st with iterative_queries := eraseA id st.iterative_queries }
    let st2 := Rpc.check_address_votes_from_iterative_query P st1 query
    (Rpc.handle_iterative_query P st2 query).1

/-- Rpc::tick of src/rpc.rs: advance put queries, advance iterative
queries segregating finished find node lookups from finished gets, run the
done get cleanup (which may start pending puts), remove finished puts,
clean up finished find node lookups, run periodic maintenance, then accept
at most one inbound datagram (an explicit argument here, with the current
time in seconds), and report.  The three collectors below gather the
finished queries of the three kinds exactly as the three loops at the top
of Rpc::tick do. -/
def collectDonePuts : List (NodeId × PutQuery) → List (NodeId × Option PutError)
  | [] => []
  | kv :: rest =>
    (match PutQuery.tick kv.2 with
     | Except.ok true => [(kv.1, (none : Option PutError))]
     | Except.ok false => []
     | Except.error e => [(kv.1, some e)]) ++ collectDonePuts rest

def collectDoneGets : List (NodeId × IterativeQuery) → List NodeId
  | [] => []
  | kv :: rest =>
    (if IterativeQuery.tick kv.2 && !(isFindNode kv.2.request.request_type) then [kv.1] else []) ++ collectDoneGets rest

def collectDoneFindNodes : List (NodeId × IterativeQuery) → List (NodeId × List Node)
  | [] => []
  | kv :: rest =>
    (if IterativeQuery.tick kv.2 && isFindNode kv.2.request.request_type then [(kv.1, kv.2.closestNodes.take MAX_BUCKET_SIZE_K)] else []) ++ collectDoneFindNodes rest

def Rpc.tick (P : EngineParams) (api : CryptoApi) (st : Rpc) (now : Nat) (incoming : Option (Message × Address)) : Rpc × RpcTickReport :=
  let done_put0 := collectDonePuts st.put_queries
  let done_get0 := collectDoneGets st.iterative_queries
  let done_find0 := collectDoneFindNodes st.iterative_queries
  let sr := Rpc.handleDoneGets P st done_get0
  let done_put := done_put0 ++ sr.2
  let st2 := { sr.1 with put_queries := done_put.foldl (fun m kv => eraseA kv.1 m) sr.1.put_queries }
  let st3 := done_find0.foldl (fun s kv => Rpc.handleDoneFindNode P s kv.1) st2
  let st4 := Rpc.periodic_node_maintainance P st3 now
  let outcome :=
    match incoming with
    | none => (st4, none)
    | some ms =>
      match ms.1.message_type with
      | MessageType.Request req => (Rpc.handle_request P st4 ms.2 ms.1.transaction_id req, none)
      | _ => Rpc.handle_response P api st4 ms.2 ms.1
  (outcome.1,
    { done_get_queries := done_get0
      done_put_queries := done_put
      done_find_node_queries := done_find0
      query_response := outcome.2 })

/-- A trivial crypto instance used to evaluate the model at concrete
inputs: every key and signature parses to itself, every signature
verifies, and the digest is constant. -/
def cryptoTriv : CryptoApi :=
  { sha1 := fun _ => List.replicate 20 0,
    parseVerifyingKey := fun k => some k,
    parseSignature := fun s => some s,
    verify := fun _ _ _ => true,
    verifyingKey := fun sk => sk,
    sign := fun _ _ => List.replicate 64 0 }

/-- A crypto instance on which every public key is rejected. -/
def cryptoReject : CryptoApi :=
  { cryptoTriv with parseVerifyingKey := fun _ => none }

/-- Trivial engine parameters used to evaluate the model at concrete
inputs. -/
def paramsTriv : EngineParams :=
  { closest_secure := fun _ _ _ _ => [],
    routing_add := fun rt n => { rt with nodes := rt.nodes ++ [n] },
    dht_size_estimate := fun _ => 0,
    subnets_count := fun _ => 0,
    take_until_secure := fun ns _ _ => ns,
    best_address := fun _ => none,
    server := fun _ _ _ => (MessageType.Error { code := 0, description := "" }, none),
    id_from_ip := fun _ => [],
    id_valid_for := fun _ _ => true }

/-- Engine state as Rpc::new initialises it (bootstrap resolved to no
addresses, local id empty). -/
def stEmpty : Rpc :=
  { bootstrap := [],
    socket := { next_tid := 0, server_mode := false, sent_requests := [], sent_responses := [], sent_errors := [] },
    routing_table := { id := [], nodes := [] },
    last_table_refresh := 0,
    last_table_ping := 0,
    cached_iterative_queries := [],
    iterative_queries := [],
    put_queries := [],
    dht_size_estimates_sum := 0,
    responders_based_dht_size_estimates_sum := 1000000,
    responders_based_dht_size_estimates_count := 0,
    subnets_sum := 20,
    public_address := none,
    firewalled := true }

-- Helper lemmas on the byte-string builders.

theorem strBytes_append (a b : String) : strBytes (a ++ b) = strBytes a ++ strBytes b := by
  simp [strBytes]

theorem strBytes_natToString (n : Nat) : strBytes (toString n) = decimalNat n := rfl

theorem strBytes_intToString (i : Int) : strBytes (toString i) = decimalInt i := by
  cases i with
  | ofNat m => rfl
  | negSucc m =>
    show strBytes ("-" ++ Nat.repr (m + 1)) = 45 :: decimalNat (m + 1)
    rw [strBytes_append]
    rfl

/-- Claim C4: encode_signable produces exactly the byte string
(the salt block when present) then "3:seqi", the decimal seq, "e1:v", the
ASCII decimal value length, a colon and the value, with no leading or
trailing bytes; and it matches the two test vectors of the spec. -/
theorem claim_C4 :
    (∀ (seq : Int) (value : List Nat) (salt : Option (List Nat)),
      encode_signable seq value salt = encode_signable_spec seq value salt)
    ∧ encode_signable 4 (strBytes ("Hello world!")) none = strBytes ("3:seqi4e1:v12:Hello world!")
    ∧ encode_signable 4 (strBytes ("Hello world!")) (some (strBytes ("foobar"))) = strBytes ("4:salt6:foobar3:seqi4e1:v12:Hello world!") := by
  refine ⟨?_, by decide, by decide⟩
  intro seq value salt
  cases salt with
  | none =>
    simp [encode_signable, encode_signable_spec, strBytes_append, strBytes_natToString,
      strBytes_intToString, List.append_assoc]
  | some s =>
    simp [encode_signable, encode_signable_spec, strBytes_append, strBytes_natToString,
      strBytes_intToString, List.append_assoc]

/-- Claim C9: cas is never part of the signed payload: the signable of an
item is unchanged by with_cas, and with_cas changes only the cas field. -/
theorem claim_C9 : ∀ (m : MutableItem) (c : Int),
    (m.with_cas c).target = m.target ∧ (m.with_cas c).key = m.key ∧
    (m.with_cas c).seq = m.seq ∧ (m.with_cas c).value = m.value ∧
    (m.with_cas c).signature = m.signature ∧ (m.with_cas c).salt = m.salt ∧
    (m.with_cas c).cas = some c ∧
    encode_signable (m.with_cas c).seq (m.with_cas c).value (m.with_cas c).salt
      = encode_signable m.seq m.value m.salt := by
  intro m c
  simp [MutableItem.with_cas]

/-- Claim C5: from_dht_message fails with InvalidMutablePublicKey exactly
when the key bytes do not parse as a verifying key; with
InvalidMutableSignature exactly when the key parses but the signature
bytes are malformed or do not verify over the canonical signable; and
returns Ok exactly in the remaining cases. -/
theorem claim_C5 : ∀ (api : CryptoApi) (target : NodeId) (key v : List Nat) (seq : Int)
    (signature : List Nat) (salt : Option (List Nat)) (cas : Option Int),
    (MutableItem.from_dht_message api target key v seq signature salt cas
        = Except.error MutableError.InvalidMutablePublicKey
      ↔ api.parseVerifyingKey key = none)
    ∧ (MutableItem.from_dht_message api target key v seq signature salt cas
        = Except.error MutableError.InvalidMutableSignature
      ↔ ∃ pk, api.parseVerifyingKey key = some pk ∧
          (api.parseSignature signature = none ∨
            ∃ sg, api.parseSignature signature = some sg ∧
              api.verify pk (encode_signable seq v salt) sg = false))
    ∧ ((∃ item, MutableItem.from_dht_message api target key v seq signature salt cas
          = Except.ok item)
      ↔ ∃ pk sg, api.parseVerifyingKey key = some pk ∧ api.parseSignature signature = some sg ∧
          api.verify pk (encode_signable seq v salt) sg = true) := by
  intro api target key v seq signature salt cas
  cases hk : api.parseVerifyingKey key with
  | none => simp [MutableItem.from_dht_message, hk]
  | some pk =>
    cases hs : api.parseSignature signature with
    | none => simp [MutableItem.from_dht_message, hk, hs]
    | some sg =>
      cases hv : api.verify pk (encode_signable seq v salt) sg <;>
        simp [MutableItem.from_dht_message, hk, hs, hv]

/-- Claim C3 (as amended to name the external crypto guarantees the spec
assumes): whenever parsing is the identity on well formed produced keys
and signatures and signing verifies (the ed25519 round trip guarantee),
an item built by MutableItem::new passes from_dht_message. -/
theorem claim_C3 : ∀ (api : CryptoApi) (signer value : List Nat) (seq : Int) (salt : Option (List Nat)),
    api.parseVerifyingKey (api.verifyingKey signer) = some (api.verifyingKey signer) →
    api.parseSignature (api.sign signer (encode_signable seq value salt))
      = some (api.sign signer (encode_signable seq value salt)) →
    api.verify (api.verifyingKey signer) (encode_signable seq value salt)
      (api.sign signer (encode_signable seq value salt)) = true →
    MutableItem.from_dht_message api
      (MutableItem.new api signer value seq salt).target
      (MutableItem.new api signer value seq salt).key
      value seq
      (MutableItem.new api signer value seq salt).signature
      salt none
      = Except.ok (MutableItem.new api signer value seq salt) := by
  intro api signer value seq salt h1 h2 h3
  simp [MutableItem.new, MutableItem.new_signed_unchecked, MutableItem.from_dht_message, h1, h2, h3]

theorem claim_C3_witness :
    MutableItem.from_dht_message cryptoTriv
      (MutableItem.new cryptoTriv [1] [2] 0 none).target
      (MutableItem.new cryptoTriv [1] [2] 0 none).key
      [2] 0
      (MutableItem.new cryptoTriv [1] [2] 0 none).signature
      none none
      = Except.ok (MutableItem.new cryptoTriv [1] [2] 0 none) :=
  claim_C3 cryptoTriv [1] [2] 0 none rfl rfl rfl

/-- A concrete target that is not the constant digest of cryptoTriv. -/
def t20 : NodeId := 1 :: List.replicate 19 0

/-- Claim C1 fails on the code: from_dht_message accepts an item whose
target is the supplied argument even though it differs from
target_from_key of the supplied key and salt; no target check is
performed. -/
theorem claim_C1_counterexample :
    MutableItem.from_dht_message cryptoTriv t20 (List.replicate 32 0) [] 0 (List.replicate 64 0) none none
      = Except.ok
        { target := t20, key := List.replicate 32 0, seq := 0, value := [],
          signature := List.replicate 64 0, salt := none, cas := none }
    ∧ t20 ≠ MutableItem.target_from_key cryptoTriv.sha1 (List.replicate 32 0) none := by
  constructor
  · decide
  · decide

/-- Claim C1 as amended: the accepted item's target equals the target
argument passed in, unconditionally; the invariant
target = SHA1 of key and salt therefore holds exactly when the caller
passes that derived value. -/
theorem claim_C1_target_passthrough : ∀ (api : CryptoApi) (target : NodeId) (key v : List Nat)
    (seq : Int) (signature : List Nat) (salt : Option (List Nat)) (cas : Option Int)
    (item : MutableItem),
    MutableItem.from_dht_message api target key v seq signature salt cas = Except.ok item →
    item.target = target := by
  intro api target key v seq signature salt cas item h
  cases hk : api.parseVerifyingKey key with
  | none => simp [MutableItem.from_dht_message, hk] at h
  | some pk =>
    cases hs : api.parseSignature signature with
    | none => simp [MutableItem.from_dht_message, hk, hs] at h
    | some sg =>
      cases hv : api.verify pk (encode_signable seq v salt) sg with
      | false => simp [MutableItem.from_dht_message, hk, hs, hv] at h
      | true =>
        simp [MutableItem.from_dht_message, hk, hs, hv] at h
        rw [← h]

theorem claim_C1_witness :
    ({ target := t20, key := [], seq := 0, value := [], signature := [], salt := none,
       cas := none } : MutableItem).target = t20 :=
  claim_C1_target_passthrough cryptoTriv t20 [] [] 0 [] none none _ (by decide)

/-- Claim C10: an inbound message with the read only flag set is dropped
by handle_response with no state change at all. -/
theorem claim_C10 : ∀ (P : EngineParams) (api : CryptoApi) (st : Rpc) (sender : Address)
    (message : Message),
    message.read_only = true →
    Rpc.handle_response P api st sender message = (st, none) := by
  intro P api st sender message h
  simp [Rpc.handle_response, h]

theorem claim_C10_witness :
    Rpc.handle_response paramsTriv cryptoTriv stEmpty 0
      { transaction_id := 0, version := none, requester_ip := none, read_only := true,
        message_type := MessageType.Response (ResponseSpecific.Ping { responder_id := [] }) }
      = (stEmpty, none) :=
  claim_C10 paramsTriv cryptoTriv stEmpty 0
    { transaction_id := 0, version := none, requester_ip := none, read_only := true,
      message_type := MessageType.Response (ResponseSpecific.Ping { responder_id := [] }) }
    rfl

-- Association list lemmas.

theorem lookupA_insertA {β : Type} (k : NodeId) (v : β) (l : List (NodeId × β)) :
    lookupA (insertA k v l) k = some v := by
  simp [insertA, lookupA]

theorem lookupA_eraseA_self {β : Type} (k : NodeId) (l : List (NodeId × β)) :
    lookupA (eraseA k l) k = none := by
  induction l with
  | nil => rfl
  | cons kv rest ih =>
    by_cases h : kv.1 = k
    · simp [eraseA, h, ih]
    · simp [eraseA, h, lookupA, ih]

theorem lookupA_eraseA_ne {β : Type} (k t : NodeId) (l : List (NodeId × β)) (h : k ≠ t) :
    lookupA (eraseA k l) t = lookupA l t := by
  induction l with
  | nil => rfl
  | cons kv rest ih =>
    by_cases hk : kv.1 = k
    · have ht : ¬(kv.1 = t) := fun hkt => h (hk.symm.trans hkt)
      rw [eraseA, if_pos hk, ih, lookupA, if_neg ht]
    · rw [eraseA, if_neg hk]
      simp only [lookupA]
      rw [ih]

theorem lookupA_eraseA_none {β : Type} (k t : NodeId) (l : List (NodeId × β))
    (h : lookupA l t = none) : lookupA (eraseA k l) t = none := by
  by_cases hk : k = t
  · rw [hk]; exact lookupA_eraseA_self t l
  · rw [lookupA_eraseA_ne k t l hk]; exact h

theorem nodupKeysB_eraseA {β : Type} (k : NodeId) (l : List (NodeId × β))
    (h : nodupKeysB l = true) : nodupKeysB (eraseA k l) = true := by
  induction l with
  | nil => rfl
  | cons kv rest ih =>
    rw [nodupKeysB] at h
    rcases Bool.and_eq_true_iff.mp h with ⟨h1, h2⟩
    rw [Bool.not_eq_true'] at h1
    by_cases hk : kv.1 = k
    · simp [eraseA, hk]
      exact ih h2
    · rw [eraseA]
      simp only [hk, if_false]
      rw [nodupKeysB]
      refine Bool.and_eq_true_iff.mpr ⟨?_, ih h2⟩
      have hnone : lookupA rest kv.1 = none := by
        rw [containsKeyA] at h1
        cases hl : lookupA rest kv.1
        · rfl
        · rw [hl] at h1; simp at h1
      have he : lookupA (eraseA k rest) kv.1 = none := lookupA_eraseA_none k kv.1 rest hnone
      simp [containsKeyA, he]

theorem nodupKeysB_insertA {β : Type} (k : NodeId) (v : β) (l : List (NodeId × β))
    (h : nodupKeysB l = true) : nodupKeysB (insertA k v l) = true := by
  rw [insertA, nodupKeysB]
  refine Bool.and_eq_true_iff.mpr ⟨?_, nodupKeysB_eraseA k l h⟩
  simp [containsKeyA, lookupA_eraseA_self]

theorem lookupA_replaceValA_self {β : Type} (k : NodeId) (v w : β) (l : List (NodeId × β))
    (h : lookupA l k = some w) : lookupA (replaceValA k v l) k = some v := by
  induction l with
  | nil => simp [lookupA] at h
  | cons kv rest ih =>
    by_cases hk : kv.1 = k
    · simp [replaceValA, lookupA, hk]
    · rw [lookupA] at h
      simp only [hk, if_false] at h
      simp only [replaceValA, List.map_cons, if_neg hk, lookupA]
      simpa [replaceValA, lookupA, hk] using ih h

theorem lookupA_replaceValA_ne {β : Type} (k t : NodeId) (v : β) (l : List (NodeId × β))
    (h : k ≠ t) : lookupA (replaceValA k v l) t = lookupA l t := by
  induction l with
  | nil => rfl
  | cons kv rest ih =>
    by_cases hk : kv.1 = k
    · have ht : ¬(kv.1 = t) := fun hkt => h (hk.symm.trans hkt)
      simp only [replaceValA, List.map_cons, if_pos hk, lookupA, if_neg ht]
      simpa [replaceValA] using ih
    · by_cases ht : kv.1 = t
      · simp [replaceValA, lookupA, hk, ht, Ne.symm h]
      · simp only [replaceValA, List.map_cons, if_neg hk, lookupA, if_neg ht]
        simpa [replaceValA] using ih

theorem lookupA_mem {β : Type} (k : NodeId) (v : β) (l : List (NodeId × β))
    (h : lookupA l k = some v) : (k, v) ∈ l := by
  induction l with
  | nil => simp [lookupA] at h
  | cons kv rest ih =>
    by_cases hk : kv.1 = k
    · rw [lookupA] at h
      simp only [hk, if_true] at h
      injection h with h2
      have hkv : (k, v) = kv := by
        cases kv
        simp_all
      rw [hkv]
      exact List.mem_cons_self _ _
    · rw [lookupA] at h
      simp only [hk, if_false] at h
      exact List.mem_cons_of_mem kv (ih h)

-- Frame lemmas for Rpc::get.

theorem Rpc.get_fst_put_queries (P : EngineParams) (st : Rpc) (request : RequestTypeSpecific)
    (extra : Option (List Address)) :
    ((Rpc.get P st request extra).1).put_queries = st.put_queries := by
  unfold Rpc.get
  split
  · rfl
  · split <;> rfl

theorem Rpc.get_fst_cached (P : EngineParams) (st : Rpc) (request : RequestTypeSpecific)
    (extra : Option (List Address)) :
    ((Rpc.get P st request extra).1).cached_iterative_queries = st.cached_iterative_queries := by
  unfold Rpc.get
  split
  · rfl
  · split <;> rfl

theorem Rpc.get_nodup_iterative (P : EngineParams) (st : Rpc) (request : RequestTypeSpecific)
    (extra : Option (List Address)) (h : nodupKeysB st.iterative_queries = true) :
    nodupKeysB ((Rpc.get P st request extra).1).iterative_queries = true := by
  unfold Rpc.get
  split
  · exact h
  · split
    · exact h
    · exact nodupKeysB_insertA _ _ _ h

/-- Claim C6: a put for a target with a put query already inflight returns
PutQueryIsInflight and leaves the state untouched; and put preserves
key uniqueness of both query maps, so there is at most one put and one
iterative query per target. -/
theorem claim_C6 : ∀ (P : EngineParams) (st : Rpc) (request : PutRequestSpecific),
    (containsKeyA st.put_queries (putRequestTarget request) = true →
      Rpc.put P st request = (st, some (PutError.PutQueryIsInflight (putRequestTarget request))))
    ∧ (nodupKeysB st.put_queries = true →
      nodupKeysB (Rpc.put P st request).1.put_queries = true)
    ∧ (nodupKeysB st.iterative_queries = true →
      nodupKeysB (Rpc.put P st request).1.iterative_queries = true) := by
  intro P st request
  refine ⟨?_, ?_, ?_⟩
  · intro h
    simp [Rpc.put, h]
  · intro h
    unfold Rpc.put
    by_cases hc : containsKeyA st.put_queries (putRequestTarget request) = true
    · simp [hc, h]
    · simp only [Bool.not_eq_true] at hc
      cases hg : cachedGoodNodes st (putRequestTarget request) with
      | some ns =>
        cases hs : PutQuery.start (PutQuery.new (putRequestTarget request) request) st.socket ns with
        | error e => simp [hc, hg, hs, h]
        | ok qs =>
          simp [hc, hg, hs]
          exact nodupKeysB_insertA _ _ _ h
      | none =>
        simp only [hc, hg, Bool.false_eq_true, if_false]
        rw [Rpc.get_fst_put_queries]
        exact nodupKeysB_insertA _ _ _ h
  · intro h
    unfold Rpc.put
    by_cases hc : containsKeyA st.put_queries (putRequestTarget request) = true
    · simp [hc, h]
    · simp only [Bool.not_eq_true] at hc
      cases hg : cachedGoodNodes st (putRequestTarget request) with
      | some ns =>
        cases hs : PutQuery.start (PutQuery.new (putRequestTarget request) request) st.socket ns with
        | error e => simp [hc, hg, hs, h]
        | ok qs => simp [hc, hg, hs, h]
      | none =>
        simp only [hc, hg, Bool.false_eq_true, if_false]
        exact Rpc.get_nodup_iterative _ _ _ _ h

def stC6 : Rpc :=
  { stEmpty with put_queries := [([3], PutQuery.new [3] (PutRequestSpecific.PutImmutable { target := [3] }))] }

theorem claim_C6_witness :
    Rpc.put paramsTriv stC6 (PutRequestSpecific.PutImmutable { target := [3] })
      = (stC6, some (PutError.PutQueryIsInflight [3]))
    ∧ nodupKeysB (Rpc.put paramsTriv stC6 (PutRequestSpecific.PutImmutable { target := [3] })).1.put_queries = true
    ∧ nodupKeysB (Rpc.put paramsTriv stC6 (PutRequestSpecific.PutImmutable { target := [3] })).1.iterative_queries = true :=
  ⟨(claim_C6 paramsTriv stC6 (PutRequestSpecific.PutImmutable { target := [3] })).1 (by decide),
   (claim_C6 paramsTriv stC6 (PutRequestSpecific.PutImmutable { target := [3] })).2.1 (by decide),
   (claim_C6 paramsTriv stC6 (PutRequestSpecific.PutImmutable { target := [3] })).2.2 (by decide)⟩

-- Projection preservation lemmas for the iterative query builders.

theorem foldl_visitAddr_keeps (l : List Address) (acc : IterativeQuery × KrpcSocket) :
    ((List.foldl (fun a b => IterativeQuery.visit a.1 a.2 b) acc l).1).target = acc.1.target
    ∧ ((List.foldl (fun a b => IterativeQuery.visit a.1 a.2 b) acc l).1).request = acc.1.request
    ∧ ((List.foldl (fun a b => IterativeQuery.visit a.1 a.2 b) acc l).1).responses = acc.1.responses := by
  induction l generalizing acc with
  | nil => exact ⟨rfl, rfl, rfl⟩
  | cons x xs ih =>
    simp only [List.foldl_cons]
    exact ⟨(ih _).1, (ih _).2.1, (ih _).2.2⟩

theorem foldl_visitNode_keeps (l : List Node) (acc : IterativeQuery × KrpcSocket) :
    ((List.foldl (fun a n => IterativeQuery.visit a.1 a.2 n.address) acc l).1).target = acc.1.target
    ∧ ((List.foldl (fun a n => IterativeQuery.visit a.1 a.2 n.address) acc l).1).request = acc.1.request
    ∧ ((List.foldl (fun a n => IterativeQuery.visit a.1 a.2 n.address) acc l).1).responses = acc.1.responses := by
  induction l generalizing acc with
  | nil => exact ⟨rfl, rfl, rfl⟩
  | cons x xs ih =>
    simp only [List.foldl_cons]
    exact ⟨(ih _).1, (ih _).2.1, (ih _).2.2⟩

theorem foldl_addCand_keeps (l : List Node) (q : IterativeQuery) :
    (List.foldl IterativeQuery.add_candidate q l).target = q.target
    ∧ (List.foldl IterativeQuery.add_candidate q l).request = q.request
    ∧ (List.foldl IterativeQuery.add_candidate q l).responses = q.responses := by
  induction l generalizing q with
  | nil => exact ⟨rfl, rfl, rfl⟩
  | cons x xs ih =>
    simp only [List.foldl_cons]
    exact ⟨(ih _).1, (ih _).2.1, (ih _).2.2⟩

theorem IterativeQuery.start_keeps (q : IterativeQuery) (s : KrpcSocket) :
    (IterativeQuery.start q s).1.started = true
    ∧ (IterativeQuery.start q s).1.target = q.target
    ∧ (IterativeQuery.start q s).1.request = q.request
    ∧ (IterativeQuery.start q s).1.responses = q.responses := by
  refine ⟨rfl, ?_, ?_, ?_⟩
  · exact (foldl_visitNode_keeps _ (q, s)).1
  · exact (foldl_visitNode_keeps _ (q, s)).2.1
  · exact (foldl_visitNode_keeps _ (q, s)).2.2

theorem startNewIterativeQuery_keeps (P : EngineParams) (st : Rpc) (request : RequestTypeSpecific)
    (extra : Option (List Address)) (target : NodeId) :
    (Rpc.startNewIterativeQuery P st request extra target).1.started = true
    ∧ (Rpc.startNewIterativeQuery P st request extra target).1.target = target
    ∧ (Rpc.startNewIterativeQuery P st request extra target).1.request
        = { requester_id := st.routing_table.id, request_type := request }
    ∧ (Rpc.startNewIterativeQuery P st request extra target).1.responses = [] := by
  refine ⟨rfl, ?_, ?_, ?_⟩
  all_goals
    simp only [Rpc.startNewIterativeQuery]
    rcases extra with _ | ex <;>
      cases hc : lookupA st.cached_iterative_queries target <;>
        by_cases hb : (P.closest_secure st.routing_table target st.responders_based_dht_size_estimate st.average_subnets).isEmpty
            || decide ((P.closest_secure st.routing_table target st.responders_based_dht_size_estimate st.average_subnets).length < st.bootstrap.length) <;>
          simp [hc, hb, IterativeQuery.start_keeps, foldl_addCand_keeps, foldl_visitAddr_keeps,
            IterativeQuery.new]

/-- Claim C8: when an iterative query for the target is already underway,
get returns the responses seen so far and changes nothing; otherwise it
returns none and a new started iterative query for the target (carrying
the request and no responses yet) is inserted. -/
theorem claim_C8 : ∀ (P : EngineParams) (st : Rpc) (request : RequestTypeSpecific)
    (extra : Option (List Address)) (target : NodeId),
    requestTheTarget request = some target →
    ((∀ q, lookupA st.iterative_queries target = some q →
        Rpc.get P st request extra = (st, some q.responses))
      ∧ (lookupA st.iterative_queries target = none →
        (Rpc.get P st request extra).2 = none
        ∧ (lookupA (Rpc.get P st request extra).1.iterative_queries target).map IterativeQuery.started = some true
        ∧ (lookupA (Rpc.get P st request extra).1.iterative_queries target).map IterativeQuery.target = some target
        ∧ (lookupA (Rpc.get P st request extra).1.iterative_queries target).map IterativeQuery.request
            = some { requester_id := st.routing_table.id, request_type := request }
        ∧ (lookupA (Rpc.get P st request extra).1.iterative_queries target).map IterativeQuery.responses = some [])) := by
  intro P st request extra target h
  constructor
  · intro q hq
    simp [Rpc.get, h, hq]
  · intro hn
    have hk := startNewIterativeQuery_keeps P st request extra target
    have hred : Rpc.get P st request extra
        = ({ st with
              socket := (Rpc.startNewIterativeQuery P st request extra target).2,
              iterative_queries := insertA target (Rpc.startNewIterativeQuery P st request extra target).1 st.iterative_queries },
           none) := by
      simp [Rpc.get, h, hn]
    rw [hred]
    refine ⟨rfl, ?_, ?_, ?_, ?_⟩
    · simp [lookupA_insertA, hk.1]
    · simp [lookupA_insertA, hk.2.1]
    · simp [lookupA_insertA, hk.2.2.1]
    · simp [lookupA_insertA, hk.2.2.2]

def qC8 : IterativeQuery :=
  { IterativeQuery.new [7] { requester_id := [], request_type := RequestTypeSpecific.FindNode { target := [7] } } with
    responses := [Response.Peers [1]] }

def stC8 : Rpc :=
  { stEmpty with iterative_queries := [([7], qC8)] }

theorem claim_C8_witness :
    Rpc.get paramsTriv stC8 (RequestTypeSpecific.FindNode { target := [7] }) none = (stC8, some qC8.responses)
    ∧ ((Rpc.get paramsTriv stEmpty (RequestTypeSpecific.FindNode { target := [7] }) none).2 = none
      ∧ (lookupA (Rpc.get paramsTriv stEmpty (RequestTypeSpecific.FindNode { target := [7] }) none).1.iterative_queries [7]).map IterativeQuery.started = some true
      ∧ (lookupA (Rpc.get paramsTriv stEmpty (RequestTypeSpecific.FindNode { target := [7] }) none).1.iterative_queries [7]).map IterativeQuery.target = some [7]
      ∧ (lookupA (Rpc.get paramsTriv stEmpty (RequestTypeSpecific.FindNode { target := [7] }) none).1.iterative_queries [7]).map IterativeQuery.request
          = some { requester_id := stEmpty.routing_table.id, request_type := RequestTypeSpecific.FindNode { target := [7] } }
      ∧ (lookupA (Rpc.get paramsTriv stEmpty (RequestTypeSpecific.FindNode { target := [7] }) none).1.iterative_queries [7]).map IterativeQuery.responses = some []) :=
  ⟨(claim_C8 paramsTriv stC8 (RequestTypeSpecific.FindNode { target := [7] }) none [7] rfl).1 qC8 rfl,
   (claim_C8 paramsTriv stEmpty (RequestTypeSpecific.FindNode { target := [7] }) none [7] rfl).2 rfl⟩

-- Lemmas for handle_response on the owning iterative query.

theorem foldl_addCand_keeps2 (l : List Node) (q : IterativeQuery) :
    (List.foldl IterativeQuery.add_candidate q l).responders = q.responders
    ∧ (List.foldl IterativeQuery.add_candidate q l).inflight_txids = q.inflight_txids := by
  induction l generalizing q with
  | nil => exact ⟨rfl, rfl⟩
  | cons x xs ih =>
    simp only [List.foldl_cons]
    exact ⟨(ih _).1, (ih _).2⟩

theorem iterativeAdjust_responders (sender : Address) (message : Message) (q : IterativeQuery) :
    (iterativeAdjust sender message q).responders
      = (match message.get_token with
         | some rt => insertNodeById q.responders ((Node.new rt.1 sender).with_token rt.2)
         | none => q.responders) := by
  unfold iterativeAdjust
  cases hcn : message.get_closer_nodes <;>
    cases htk : message.get_token <;>
      cases hip : message.requester_ip <;>
        simp [IterativeQuery.add_responding_node, IterativeQuery.add_address_vote,
          foldl_addCand_keeps2]

theorem iterativeAdjust_inflight (sender : Address) (message : Message) (q : IterativeQuery) :
    (iterativeAdjust sender message q).inflight_txids = q.inflight_txids := by
  unfold iterativeAdjust
  cases hcn : message.get_closer_nodes <;>
    cases htk : message.get_token <;>
      cases hip : message.requester_ip <;>
        simp [IterativeQuery.add_responding_node, IterativeQuery.add_address_vote,
          foldl_addCand_keeps2]

theorem find?_replaceFirstBy {α : Type} (p : α → Bool) (f : α → α) (l : List α) (x : α)
    (hx : l.find? p = some x) (hf : p (f x) = true) :
    (replaceFirstBy p f l).find? p = some (f x) := by
  induction l with
  | nil => simp at hx
  | cons y ys ih =>
    by_cases hy : p y = true
    · rw [List.find?_cons_of_pos _ hy] at hx
      injection hx with hx2
      rw [replaceFirstBy, if_pos hy]
      rw [hx2]
      exact List.find?_cons_of_pos _ hf
    · rw [List.find?_cons_of_neg _ (by simpa using hy)] at hx
      rw [replaceFirstBy, if_neg (by simpa using hy)]
      rw [List.find?_cons_of_neg _ (by simpa using hy)]
      exact ih hx

/-- Claim C2 as amended: an inbound GetMutable response whose record fails
validation emits no (target, Response) pair, but the query update that
precedes the validation still runs: when the response carries a write
token the sender is added to the responders of the owning query; without
a token the responders are unchanged. -/
theorem claim_C2_amended : ∀ (P : EngineParams) (api : CryptoApi) (st : Rpc) (sender : Address)
    (message : Message) (args : GetMutableResponseArguments) (k : NodeId) (q : IterativeQuery)
    (e : MutableError),
    message.read_only = false →
    message.message_type = MessageType.Response (ResponseSpecific.GetMutable args) →
    st.put_queries.find? (fun kv => kv.2.inflight message.transaction_id) = none →
    st.iterative_queries.find? (fun kv => kv.2.inflight message.transaction_id) = some (k, q) →
    MutableItem.from_dht_message api q.target args.k args.v args.seq args.sig (querySalt q) none
      = Except.error e →
    (Rpc.handle_response P api st sender message).2 = none
    ∧ (Rpc.handle_response P api st sender message).1.iterative_queries.find?
        (fun kv => kv.2.inflight message.transaction_id)
        = some (k, iterativeAdjust sender message q)
    ∧ (iterativeAdjust sender message q).responders
        = (match args.token with
           | some tok => insertNodeById q.responders ((Node.new args.responder_id sender).with_token tok)
           | none => q.responders) := by
  intro P api st sender message args k q e hro hmt hput hiter herr
  have hout : responseOutcome api q (iterativeAdjust sender message q) sender message = none := by
    simp [responseOutcome, hmt, herr]
  have hred : Rpc.handle_response P api st sender message
      = ({ st with
            iterative_queries := replaceFirstBy (fun kv2 => kv2.2.inflight message.transaction_id)
              (fun kv2 => (kv2.1, iterativeAdjust sender message q)) st.iterative_queries,
            routing_table :=
              (match message.get_author_id with
               | some id => P.routing_add st.routing_table (Node.new id sender)
               | none => st.routing_table) },
         none) := by
    simp [Rpc.handle_response, hro, hput, hiter, hout]
  have hp : q.inflight message.transaction_id = true := by
    have := List.find?_some hiter
    simpa using this
  refine ⟨by rw [hred], ?_, ?_⟩
  · rw [hred]
    refine find?_replaceFirstBy _ _ _ _ hiter ?_
    show (iterativeAdjust sender message q).inflight message.transaction_id = true
    rw [IterativeQuery.inflight, iterativeAdjust_inflight]
    exact hp
  · rw [iterativeAdjust_responders]
    rw [Message.get_token, hmt]
    cases h : args.token <;> simp [h]

def qC2 : IterativeQuery :=
  { IterativeQuery.new [9] { requester_id := [], request_type := RequestTypeSpecific.GetValue { target := [9], seq := none, salt := none } } with
    inflight_txids := [1], started := true }

def stC2 : Rpc :=
  { stEmpty with iterative_queries := [([9], qC2)] }

def argsC2 : GetMutableResponseArguments :=
  { responder_id := [5], token := some 9, v := [], seq := 0, sig := [], k := [], nodes := [] }

def mC2 : Message :=
  { transaction_id := 1, version := none, requester_ip := none, read_only := false,
    message_type := MessageType.Response (ResponseSpecific.GetMutable argsC2) }

/-- Claim C2 fails on the code: a GetMutable response whose record fails
validation (here the public key is rejected) but which carries a write
token does add the sending node to the responders of the query, because
handle_response records responding nodes before validating the record;
only the emission of a (target, Response) pair is suppressed. -/
theorem claim_C2_counterexample :
    (Rpc.handle_response paramsTriv cryptoReject stC2 7 mC2).2 = none
    ∧ MutableItem.from_dht_message cryptoReject [9] argsC2.k argsC2.v argsC2.seq argsC2.sig none none
        = Except.error MutableError.InvalidMutablePublicKey
    ∧ (lookupA (Rpc.handle_response paramsTriv cryptoReject stC2 7 mC2).1.iterative_queries [9]).map IterativeQuery.responders
        = some [(Node.new [5] 7).with_token 9] := by
  refine ⟨by decide, by decide, by decide⟩

theorem claim_C2_witness :
    (Rpc.handle_response paramsTriv cryptoReject stC2 7 mC2).2 = none
    ∧ (Rpc.handle_response paramsTriv cryptoReject stC2 7 mC2).1.iterative_queries.find?
        (fun kv => kv.2.inflight mC2.transaction_id)
        = some ([9], iterativeAdjust 7 mC2 qC2)
    ∧ (iterativeAdjust 7 mC2 qC2).responders
        = (match argsC2.token with
           | some tok => insertNodeById qC2.responders ((Node.new argsC2.responder_id 7).with_token tok)
           | none => qC2.responders) :=
  claim_C2_amended paramsTriv cryptoReject stC2 7 mC2 argsC2 [9] qC2
    MutableError.InvalidMutablePublicKey rfl rfl rfl (by decide) (by decide)

-- Frame lemmas for the tick path.

theorem check_votes_frames (P : EngineParams) (st : Rpc) (q : IterativeQuery) :
    (Rpc.check_address_votes_from_iterative_query P st q).put_queries = st.put_queries
    ∧ (Rpc.check_address_votes_from_iterative_query P st q).iterative_queries = st.iterative_queries := by
  unfold Rpc.check_address_votes_from_iterative_query Rpc.ping
  split
  · split <;> exact ⟨rfl, rfl⟩
  · exact ⟨rfl, rfl⟩

theorem cacheIterative_frames (P : EngineParams) (st : Rpc) (q : IterativeQuery) :
    (Rpc.cache_iterative_query P st q).1.put_queries = st.put_queries
    ∧ (Rpc.cache_iterative_query P st q).1.iterative_queries = st.iterative_queries := by
  unfold Rpc.cache_iterative_query
  split
  · split <;> exact ⟨rfl, rfl⟩
  · exact ⟨rfl, rfl⟩

theorem handleIterative_frames (P : EngineParams) (st : Rpc) (q : IterativeQuery) :
    (Rpc.handle_iterative_query P st q).1.put_queries = st.put_queries
    ∧ (Rpc.handle_iterative_query P st q).1.iterative_queries = st.iterative_queries := by
  unfold Rpc.handle_iterative_query
  refine ⟨?_, ?_⟩
  · rw [(cacheIterative_frames P _ q).1, (check_votes_frames P st q).1]
  · rw [(cacheIterative_frames P _ q).2, (check_votes_frames P st q).2]

theorem handleIterative_snd (P : EngineParams) (st : Rpc) (q : IterativeQuery) :
    ∃ e a, (Rpc.handle_iterative_query P st q).2 = P.take_until_secure q.responders e a := by
  unfold Rpc.handle_iterative_query Rpc.cache_iterative_query
  exact ⟨_, _, rfl⟩

theorem PutQuery.start_ok_of_token (q : PutQuery) (s : KrpcSocket) (nodes : List Node)
    (h : (nodes.filter (fun n => n.token.isSome)).isEmpty = false) :
    ∃ qs, PutQuery.start q s nodes = Except.ok qs ∧ qs.1.started = true := by
  simp only [PutQuery.start, h, Bool.false_eq_true, if_false]
  refine ⟨_, rfl, ?_⟩
  rfl

theorem PutQuery.start_started_of_ok (q : PutQuery) (s : KrpcSocket) (nodes : List Node)
    (qs : PutQuery × KrpcSocket) (h : PutQuery.start q s nodes = Except.ok qs) :
    qs.1.started = true := by
  simp only [PutQuery.start] at h
  split at h
  · exact absurd h (by simp)
  · injection h with h2
    rw [← h2]

theorem anyValid_filter_not_empty (ns : List Node) (h : ns.any Node.valid_token = true) :
    (ns.filter (fun n => n.token.isSome)).isEmpty = false := by
  rcases List.any_eq_true.mp h with ⟨n, hn, hv⟩
  have hs : n.token.isSome = true := (Bool.and_eq_true_iff.mp hv).1
  have : n ∈ ns.filter (fun n => n.token.isSome) := List.mem_filter.mpr ⟨hn, hs⟩
  cases hfe : (ns.filter (fun n => n.token.isSome)).isEmpty
  · rfl
  · rw [List.isEmpty_iff] at hfe
    rw [hfe] at this
    simp at this

-- handleDoneGet lemmas.

theorem handleDoneGet_absent (P : EngineParams) (st : Rpc) (id : NodeId)
    (h : lookupA st.iterative_queries id = none) :
    Rpc.handleDoneGet P st id = (st, none) := by
  unfold Rpc.handleDoneGet
  rw [h]

theorem handleDoneGet_snd_key (P : EngineParams) (st : Rpc) (id : NodeId) :
    ∀ x, (Rpc.handleDoneGet P st id).2 = some x → x.1 = id := by
  intro x hx
  simp only [Rpc.handleDoneGet] at hx
  split at hx
  · simp at hx
  · split at hx
    · simp at hx
    · split at hx
      · simp at hx
      · simp at hx
        rw [← hx]

theorem handleDoneGet_preserve_put (P : EngineParams) (st : Rpc) (id T : NodeId) (hne : id ≠ T) :
    lookupA (Rpc.handleDoneGet P st id).1.put_queries T = lookupA st.put_queries T := by
  simp only [Rpc.handleDoneGet]
  split
  · rfl
  next query hq =>
    have hframe := (handleIterative_frames P { st with iterative_queries := eraseA id st.iterative_queries } query).1
    split
    · exact congrArg (fun l => lookupA l T) hframe
    next put_query hpq =>
      split
      · rw [lookupA_replaceValA_ne id T _ _ hne]
        exact congrArg (fun l => lookupA l T) hframe
      · exact congrArg (fun l => lookupA l T) hframe

theorem handleDoneGet_preserve_iter_ne (P : EngineParams) (st : Rpc) (id T : NodeId) (hne : id ≠ T) :
    lookupA (Rpc.handleDoneGet P st id).1.iterative_queries T = lookupA st.iterative_queries T := by
  simp only [Rpc.handleDoneGet]
  split
  · rfl
  next query hq =>
    have hframe := (handleIterative_frames P { st with iterative_queries := eraseA id st.iterative_queries } query).2
    have herase : lookupA (eraseA id st.iterative_queries) T = lookupA st.iterative_queries T :=
      lookupA_eraseA_ne id T _ hne
    split
    · exact (congrArg (fun l => lookupA l T) hframe).trans herase
    next put_query hpq =>
      split
      · exact (congrArg (fun l => lookupA l T) hframe).trans herase
      · exact (congrArg (fun l => lookupA l T) hframe).trans herase

theorem handleDoneGet_preserve_iter_none (P : EngineParams) (st : Rpc) (id T : NodeId)
    (h : lookupA st.iterative_queries T = none) :
    lookupA (Rpc.handleDoneGet P st id).1.iterative_queries T = none := by
  simp only [Rpc.handleDoneGet]
  split
  · exact h
  next query hq =>
    have hframe := (handleIterative_frames P { st with iterative_queries := eraseA id st.iterative_queries } query).2
    have herase : lookupA (eraseA id st.iterative_queries) T = none :=
      lookupA_eraseA_none id T _ h
    split
    · exact (congrArg (fun l => lookupA l T) hframe).trans herase
    next put_query hpq =>
      split
      · exact (congrArg (fun l => lookupA l T) hframe).trans herase
      · exact (congrArg (fun l => lookupA l T) hframe).trans herase

theorem handleDoneGet_hit (P : EngineParams) (st : Rpc) (T : NodeId) (q : IterativeQuery) (pq : PutQuery)
    (hq : lookupA st.iterative_queries T = some q)
    (hpq : lookupA st.put_queries T = some pq)
    (htok : ∀ e a, ((P.take_until_secure q.responders e a).filter (fun n => n.token.isSome)).isEmpty = false) :
    (lookupA (Rpc.handleDoneGet P st T).1.put_queries T).map PutQuery.started = some true
    ∧ lookupA (Rpc.handleDoneGet P st T).1.iterative_queries T = none
    ∧ (Rpc.handleDoneGet P st T).2 = none := by
  have hput2 : lookupA (Rpc.handle_iterative_query P
      { st with iterative_queries := eraseA T st.iterative_queries } q).1.put_queries T = some pq := by
    rw [(handleIterative_frames P _ q).1]
    exact hpq
  obtain ⟨e, a, hsnd⟩ := handleIterative_snd P
    { st with iterative_queries := eraseA T st.iterative_queries } q
  obtain ⟨qs, hok, hstart⟩ := PutQuery.start_ok_of_token pq
    ((Rpc.handle_iterative_query P { st with iterative_queries := eraseA T st.iterative_queries } q).1.socket)
    (P.take_until_secure q.responders e a) (htok e a)
  simp only [Rpc.handleDoneGet, hq, hput2, hsnd, hok]
  refine ⟨?_, ?_, by trivial⟩
  · rw [lookupA_replaceValA_self T qs.1 pq _ hput2]
    simp [hstart]
  · rw [(handleIterative_frames P _ q).2]
    exact lookupA_eraseA_self T st.iterative_queries

theorem handleDoneGets_preserve (P : EngineParams) (ids : List NodeId) (T : NodeId) : ∀ (st : Rpc),
    (lookupA st.put_queries T).map PutQuery.started = some true →
    lookupA st.iterative_queries T = none →
    (lookupA (Rpc.handleDoneGets P st ids).1.put_queries T).map PutQuery.started = some true
    ∧ (∀ x ∈ (Rpc.handleDoneGets P st ids).2, x.1 ≠ T) := by
  induction ids with
  | nil =>
    intro st h1 h2
    exact ⟨h1, by intro x hx; simp [Rpc.handleDoneGets] at hx⟩
  | cons id rest ih =>
    intro st h1 h2
    by_cases hid : id = T
    · subst hid
      rw [Rpc.handleDoneGets]
      simp only [handleDoneGet_absent P st id h2]
      rcases ih st h1 h2 with ⟨ih1, ih2⟩
      exact ⟨ih1, by intro x hx; simp at hx; exact ih2 x hx⟩
    · rw [Rpc.handleDoneGets]
      have h1' : (lookupA (Rpc.handleDoneGet P st id).1.put_queries T).map PutQuery.started = some true := by
        rw [handleDoneGet_preserve_put P st id T hid]
        exact h1
      have h2' : lookupA (Rpc.handleDoneGet P st id).1.iterative_queries T = none :=
        handleDoneGet_preserve_iter_none P st id T h2
      rcases ih (Rpc.handleDoneGet P st id).1 h1' h2' with ⟨ih1, ih2⟩
      refine ⟨ih1, ?_⟩
      intro x hx
      simp only [List.mem_append] at hx
      rcases hx with hx | hx
      · rcases hy : (Rpc.handleDoneGet P st id).2 with _ | y
        · rw [hy] at hx; simp at hx
        · rw [hy] at hx
          simp at hx
          rw [hx]
          rw [handleDoneGet_snd_key P st id y hy]
          exact hid
      · exact ih2 x hx

theorem handleDoneGets_main (P : EngineParams) (ids : List NodeId) (T : NodeId)
    (q : IterativeQuery) (pq : PutQuery)
    (htok : ∀ e a, ((P.take_until_secure q.responders e a).filter (fun n => n.token.isSome)).isEmpty = false) :
    ∀ (st : Rpc),
    lookupA st.iterative_queries T = some q →
    lookupA st.put_queries T = some pq →
    T ∈ ids →
    (lookupA (Rpc.handleDoneGets P st ids).1.put_queries T).map PutQuery.started = some true
    ∧ (∀ x ∈ (Rpc.handleDoneGets P st ids).2, x.1 ≠ T) := by
  induction ids with
  | nil =>
    intro st _ _ hmem
    simp at hmem
  | cons id rest ih =>
    intro st hq hpq hmem
    by_cases hid : id = T
    · subst hid
      rw [Rpc.handleDoneGets]
      rcases handleDoneGet_hit P st id q pq hq hpq htok with ⟨g1, g2, g3⟩
      rcases handleDoneGets_preserve P rest id (Rpc.handleDoneGet P st id).1 g1 g2 with ⟨p1, p2⟩
      refine ⟨p1, ?_⟩
      intro x hx
      simp only [g3, List.nil_append] at hx
      exact p2 x hx
    · have hmem' : T ∈ rest := by
        rcases List.mem_cons.mp hmem with h | h
        · exact absurd h.symm hid
        · exact h
      rw [Rpc.handleDoneGets]
      have hq' : lookupA (Rpc.handleDoneGet P st id).1.iterative_queries T = some q := by
        rw [handleDoneGet_preserve_iter_ne P st id T hid]
        exact hq
      have hpq' : lookupA (Rpc.handleDoneGet P st id).1.put_queries T = some pq := by
        rw [handleDoneGet_preserve_put P st id T hid]
        exact hpq
      rcases ih (Rpc.handleDoneGet P st id).1 hq' hpq' hmem' with ⟨ih1, ih2⟩
      refine ⟨ih1, ?_⟩
      intro x hx
      simp only [List.mem_append] at hx
      rcases hx with hx | hx
      · rcases hy : (Rpc.handleDoneGet P st id).2 with _ | y
        · rw [hy] at hx; simp at hx
        · rw [hy] at hx
          simp at hx
          rw [hx]
          rw [handleDoneGet_snd_key P st id y hy]
          exact hid
      · exact ih2 x hx

theorem mem_collectDoneGets (l : List (NodeId × IterativeQuery)) (T : NodeId) (q : IterativeQuery)
    (hq : lookupA l T = some q) (hd : q.done = true)
    (hnf : isFindNode q.request.request_type = false) :
    T ∈ collectDoneGets l := by
  induction l with
  | nil => simp [lookupA] at hq
  | cons kv rest ih =>
    by_cases hk : kv.1 = T
    · rw [lookupA] at hq
      simp only [hk, if_true] at hq
      injection hq with h2
      have hcond : (IterativeQuery.tick kv.2 && !(isFindNode kv.2.request.request_type)) = true := by
        simp [IterativeQuery.tick, h2, hd, hnf]
      rw [collectDoneGets, hcond]
      simp [hk]
    · rw [lookupA] at hq
      simp only [hk, if_false] at hq
      rw [collectDoneGets]
      exact List.mem_append_right _ (ih hq)

theorem collectDonePuts_absent (l : List (NodeId × PutQuery)) (T : NodeId)
    (h : lookupA l T = none) : ∀ x ∈ collectDonePuts l, x.1 ≠ T := by
  induction l with
  | nil => intro x hx; simp [collectDonePuts] at hx
  | cons kv rest ih =>
    intro x hx
    rw [lookupA] at h
    by_cases hk : kv.1 = T
    · simp [hk] at h
    · simp only [hk, if_false] at h
      rw [collectDonePuts] at hx
      rcases List.mem_append.mp hx with hx | hx
      · cases htick : PutQuery.tick kv.2 with
        | ok b =>
          rw [htick] at hx
          cases b
          · simp at hx
          · simp at hx
            rw [hx]
            exact hk
        | error e1 =>
          rw [htick] at hx
          simp at hx
          rw [hx]
          exact hk
      · exact ih h x hx

theorem collectDonePuts_no_T (l : List (NodeId × PutQuery)) (T : NodeId) (pq : PutQuery)
    (hnodup : nodupKeysB l = true) (hpq : lookupA l T = some pq)
    (hpend : PutQuery.tick pq = Except.ok false) :
    ∀ x ∈ collectDonePuts l, x.1 ≠ T := by
  induction l with
  | nil => intro x hx; simp [collectDonePuts] at hx
  | cons kv rest ih =>
    rw [nodupKeysB] at hnodup
    rcases Bool.and_eq_true_iff.mp hnodup with ⟨h1, h2⟩
    rw [Bool.not_eq_true'] at h1
    intro x hx
    rw [collectDonePuts] at hx
    by_cases hk : kv.1 = T
    · rw [lookupA] at hpq
      simp only [hk, if_true] at hpq
      injection hpq with h2eq
      have habs : lookupA rest T = none := by
        rw [hk] at h1
        rw [containsKeyA] at h1
        cases hl : lookupA rest T
        · rfl
        · rw [hl] at h1; simp at h1
      rcases List.mem_append.mp hx with hx | hx
      · rw [h2eq, hpend] at hx
        simp at hx
      · exact collectDonePuts_absent rest T habs x hx
    · rw [lookupA] at hpq
      simp only [hk, if_false] at hpq
      rcases List.mem_append.mp hx with hx | hx
      · cases htick : PutQuery.tick kv.2 with
        | ok b =>
          rw [htick] at hx
          cases b
          · simp at hx
          · simp at hx
            rw [hx]
            exact hk
        | error e1 =>
          rw [htick] at hx
          simp at hx
          rw [hx]
          exact hk
      · exact ih h2 hpq x hx

theorem lookupA_foldl_eraseA {β γ : Type} (dp : List (NodeId × γ)) (T : NodeId) :
    ∀ (m : List (NodeId × β)), (∀ x ∈ dp, x.1 ≠ T) →
    lookupA (dp.foldl (fun m kv => eraseA kv.1 m) m) T = lookupA m T := by
  induction dp with
  | nil => intro m _; rfl
  | cons y ys ih =>
    intro m h
    rw [List.foldl_cons]
    rw [ih (eraseA y.1 m) (fun x hx => h x (List.mem_cons_of_mem y hx))]
    exact lookupA_eraseA_ne y.1 T m (h y (List.mem_cons_self y ys))

theorem handleDoneFindNode_put (P : EngineParams) (s : Rpc) (id : NodeId) :
    (Rpc.handleDoneFindNode P s id).put_queries = s.put_queries := by
  simp only [Rpc.handleDoneFindNode]
  split
  · rfl
  next query hq =>
    rw [(handleIterative_frames P _ query).1, (check_votes_frames P _ query).1]

theorem foldl_handleDoneFindNode_put (P : EngineParams) (l : List (NodeId × List Node)) :
    ∀ (s : Rpc),
    (l.foldl (fun s kv => Rpc.handleDoneFindNode P s kv.1) s).put_queries = s.put_queries := by
  induction l with
  | nil => intro s; rfl
  | cons y ys ih =>
    intro s
    rw [List.foldl_cons, ih, handleDoneFindNode_put]

theorem populate_put (P : EngineParams) (st : Rpc) :
    (Rpc.populate P st).put_queries = st.put_queries :=
  Rpc.get_fst_put_queries P st _ none

theorem foldl_pingstale_put (l : List Node) : ∀ (s : Rpc),
    ((l.foldl (fun acc n =>
      if n.stale then { acc with routing_table := acc.routing_table.remove n.id }
      else if n.needs_ping then Rpc.ping acc n.address
      else acc) s)).put_queries = s.put_queries := by
  induction l with
  | nil => intro s; rfl
  | cons n ns ih =>
    intro s
    rw [List.foldl_cons, ih]
    by_cases h1 : n.stale = true
    · simp [h1]
    · simp only [Bool.not_eq_true] at h1
      by_cases h2 : n.needs_ping = true
      · simp [h1, h2, Rpc.ping]
      · simp only [Bool.not_eq_true] at h2
        simp [h1, h2]

theorem maintenance_put (P : EngineParams) (st : Rpc) (now : Nat) :
    (Rpc.periodic_node_maintainance P st now).put_queries = st.put_queries := by
  simp only [Rpc.periodic_node_maintainance]
  repeat' split
  all_goals simp [foldl_pingstale_put, populate_put]

theorem cachedGoodNodes_any (st : Rpc) (target : NodeId) (ns : List Node)
    (h : cachedGoodNodes st target = some ns) : ns.any Node.valid_token = true := by
  simp only [cachedGoodNodes] at h
  split at h
  next cached heq =>
    split at h
    next hcond =>
      injection h with h2
      rw [← h2]
      exact (Bool.and_eq_true_iff.mp hcond).2
    · simp at h
  · simp at h

/-- Claim C7 as amended: with no put query inflight for the target,
(a) when the cache holds a non empty closest responding list with a valid
token the put query is started immediately and no iterative query is
touched; (b) otherwise put requests a GetValue lookup, which launches a
new started iterative GetValue query only when none is underway for the
target, and the put query is inserted pending; (b2) when an iterative
query is already underway nothing is launched and the put stays pending;
(c) when a finished non find node iterative query for a target with a
pending put is cleaned up by tick and its closest responding nodes offer a
token, the pending put query is started. -/
theorem claim_C7 : ∀ (P : EngineParams) (api : CryptoApi) (st : Rpc) (request : PutRequestSpecific) (now : Nat),
    (∀ ns, containsKeyA st.put_queries (putRequestTarget request) = false →
      cachedGoodNodes st (putRequestTarget request) = some ns →
      (Rpc.put P st request).2 = none
      ∧ (Rpc.put P st request).1.iterative_queries = st.iterative_queries
      ∧ (lookupA (Rpc.put P st request).1.put_queries (putRequestTarget request)).map PutQuery.started = some true)
    ∧ (containsKeyA st.put_queries (putRequestTarget request) = false →
      cachedGoodNodes st (putRequestTarget request) = none →
      lookupA st.iterative_queries (putRequestTarget request) = none →
      (Rpc.put P st request).2 = none
      ∧ (lookupA (Rpc.put P st request).1.put_queries (putRequestTarget request)).map PutQuery.started = some false
      ∧ (lookupA (Rpc.put P st request).1.iterative_queries (putRequestTarget request)).map IterativeQuery.started = some true
      ∧ (lookupA (Rpc.put P st request).1.iterative_queries (putRequestTarget request)).map (fun q => q.request.request_type)
          = some (RequestTypeSpecific.GetValue { target := putRequestTarget request, seq := none, salt := putRequestSalt request }))
    ∧ (∀ q0, containsKeyA st.put_queries (putRequestTarget request) = false →
      cachedGoodNodes st (putRequestTarget request) = none →
      lookupA st.iterative_queries (putRequestTarget request) = some q0 →
      (Rpc.put P st request).2 = none
      ∧ (Rpc.put P st request).1.iterative_queries = st.iterative_queries
      ∧ (lookupA (Rpc.put P st request).1.put_queries (putRequestTarget request)).map PutQuery.started = some false)
    ∧ (∀ T q pq,
      nodupKeysB st.put_queries = true →
      lookupA st.iterative_queries T = some q →
      q.done = true →
      isFindNode q.request.request_type = false →
      lookupA st.put_queries T = some pq →
      pq.started = false →
      (∀ e a, ((P.take_until_secure q.responders e a).filter (fun n => n.token.isSome)).isEmpty = false) →
      (lookupA (Rpc.tick P api st now none).1.put_queries T).map PutQuery.started = some true) := by
  intro P api st request now
  refine ⟨?_, ?_, ?_, ?_⟩
  · intro ns hnotin hcache
    have hany := cachedGoodNodes_any st (putRequestTarget request) ns hcache
    obtain ⟨qs, hok, hstart⟩ := PutQuery.start_ok_of_token
      (PutQuery.new (putRequestTarget request) request) st.socket ns
      (anyValid_filter_not_empty ns hany)
    have hred : Rpc.put P st request
        = ({ st with
             socket := qs.2,
             put_queries := insertA (putRequestTarget request) qs.1 st.put_queries }, none) := by
      simp only [Rpc.put, hnotin, Bool.false_eq_true, if_false, hcache, hok]
    rw [hred]
    refine ⟨rfl, rfl, ?_⟩
    rw [show ({ st with
          socket := qs.2,
          put_queries := insertA (putRequestTarget request) qs.1 st.put_queries } : Rpc).put_queries
        = insertA (putRequestTarget request) qs.1 st.put_queries from rfl]
    rw [lookupA_insertA]
    simp [hstart]
  · intro hnotin hng hit
    have hget : Rpc.get P st (RequestTypeSpecific.GetValue { target := putRequestTarget request, seq := none, salt := putRequestSalt request }) none
        = ({ st with
             socket := (Rpc.startNewIterativeQuery P st (RequestTypeSpecific.GetValue { target := putRequestTarget request, seq := none, salt := putRequestSalt request }) none (putRequestTarget request)).2,
             iterative_queries := insertA (putRequestTarget request)
               (Rpc.startNewIterativeQuery P st (RequestTypeSpecific.GetValue { target := putRequestTarget request, seq := none, salt := putRequestSalt request }) none (putRequestTarget request)).1
               st.iterative_queries }, none) := by
      simp [Rpc.get, requestTheTarget, hit]
    have hred : Rpc.put P st request
        = ({ (Rpc.get P st (RequestTypeSpecific.GetValue { target := putRequestTarget request, seq := none, salt := putRequestSalt request }) none).1 with
             put_queries := insertA (putRequestTarget request) (PutQuery.new (putRequestTarget request) request)
               (Rpc.get P st (RequestTypeSpecific.GetValue { target := putRequestTarget request, seq := none, salt := putRequestSalt request }) none).1.put_queries }, none) := by
      simp only [Rpc.put, hnotin, Bool.false_eq_true, if_false, hng]
    have hk := startNewIterativeQuery_keeps P st
      (RequestTypeSpecific.GetValue { target := putRequestTarget request, seq := none, salt := putRequestSalt request })
      none (putRequestTarget request)
    rw [hred, hget]
    refine ⟨rfl, ?_, ?_, ?_⟩
    · simp [lookupA_insertA, PutQuery.new]
    · simp [lookupA_insertA, hk.1]
    · simp [lookupA_insertA, hk.2.2.1]
  · intro q0 hnotin hng hit
    have hget : Rpc.get P st (RequestTypeSpecific.GetValue { target := putRequestTarget request, seq := none, salt := putRequestSalt request }) none
        = (st, some q0.responses) := by
      simp [Rpc.get, requestTheTarget, hit]
    have hred : Rpc.put P st request
        = ({ st with put_queries := insertA (putRequestTarget request) (PutQuery.new (putRequestTarget request) request) st.put_queries }, none) := by
      simp only [Rpc.put, hnotin, Bool.false_eq_true, if_false, hng, hget]
    rw [hred]
    exact ⟨rfl, rfl, by simp [lookupA_insertA, PutQuery.new]⟩
  · intro T q pq hnodup hq hdone hnf hpq hpend htok
    have hpend2 : PutQuery.tick pq = Except.ok false := by
      simp [PutQuery.tick, hpend]
    have hmem : T ∈ collectDoneGets st.iterative_queries :=
      mem_collectDoneGets st.iterative_queries T q hq hdone hnf
    have hmain := handleDoneGets_main P (collectDoneGets st.iterative_queries) T q pq htok st hq hpq hmem
    have hdp0 := collectDonePuts_no_T st.put_queries T pq hnodup hpq hpend2
    have hall : ∀ x ∈ collectDonePuts st.put_queries
        ++ (Rpc.handleDoneGets P st (collectDoneGets st.iterative_queries)).2, x.1 ≠ T := by
      intro x hx
      rcases List.mem_append.mp hx with h | h
      · exact hdp0 x h
      · exact hmain.2 x h
    simp only [Rpc.tick]
    rw [maintenance_put, foldl_handleDoneFindNode_put]
    rw [lookupA_foldl_eraseA _ T _ hall]
    exact hmain.1

def qC7f : IterativeQuery :=
  { IterativeQuery.new [3] { requester_id := [], request_type := RequestTypeSpecific.FindNode { target := [3] } } with
    started := true, done := true }

def stC7x : Rpc :=
  { stEmpty with iterative_queries := [([3], qC7f)] }

def reqC7 : PutRequestSpecific := PutRequestSpecific.PutImmutable { target := [3] }

/-- Claim C7 fails on the code: a put whose target already has an
iterative query underway (here a find node lookup) does not launch an
iterative GetValue query: the iterative queries are unchanged, and when
that lookup completes in a later tick through the find node path, the
pending put query is never started. -/
theorem claim_C7_counterexample :
    (Rpc.put paramsTriv stC7x reqC7).2 = none
    ∧ (Rpc.put paramsTriv stC7x reqC7).1.iterative_queries = [([3], qC7f)]
    ∧ isFindNode qC7f.request.request_type = true
    ∧ (lookupA (Rpc.put paramsTriv stC7x reqC7).1.put_queries [3]).map PutQuery.started = some false
    ∧ (Rpc.tick paramsTriv cryptoTriv (Rpc.put paramsTriv stC7x reqC7).1 0 none).2.done_find_node_queries = [([3], [])]
    ∧ (lookupA (Rpc.tick paramsTriv cryptoTriv (Rpc.put paramsTriv stC7x reqC7).1 0 none).1.put_queries [3]).map PutQuery.started = some false := by
  refine ⟨by decide, by decide, by decide, by decide, by decide, by decide⟩

def nodeTok : Node :=
  { id := [8], address := 2, token := some 5, fresh := true, stale := false, needs_ping := false }

def entryC7 : CachedIterativeQuery :=
  { closest_responding_nodes := [nodeTok], dht_size_estimate := 0,
    responders_dht_size_estimate := 0, subnets := 0, is_find_node := false }

def stC7a : Rpc :=
  { stEmpty with cached_iterative_queries := [([4], entryC7)] }

def reqC7a : PutRequestSpecific := PutRequestSpecific.PutImmutable { target := [4] }

def qC7u : IterativeQuery :=
  IterativeQuery.new [4] { requester_id := [], request_type := RequestTypeSpecific.FindNode { target := [4] } }

def stC7b : Rpc :=
  { stEmpty with iterative_queries := [([4], qC7u)] }

def qC7d : IterativeQuery :=
  { IterativeQuery.new [6] { requester_id := [], request_type := RequestTypeSpecific.GetValue { target := [6], seq := none, salt := none } } with
    done := true, responders := [nodeTok] }

def stC7c : Rpc :=
  { stEmpty with
    iterative_queries := [([6], qC7d)],
    put_queries := [([6], PutQuery.new [6] (PutRequestSpecific.PutImmutable { target := [6] }))] }

theorem claim_C7_witness :
    ((Rpc.put paramsTriv stC7a reqC7a).2 = none
      ∧ (Rpc.put paramsTriv stC7a reqC7a).1.iterative_queries = stC7a.iterative_queries
      ∧ (lookupA (Rpc.put paramsTriv stC7a reqC7a).1.put_queries [4]).map PutQuery.started = some true)
    ∧ ((Rpc.put paramsTriv stEmpty reqC7a).2 = none
      ∧ (lookupA (Rpc.put paramsTriv stEmpty reqC7a).1.put_queries [4]).map PutQuery.started = some false
      ∧ (lookupA (Rpc.put paramsTriv stEmpty reqC7a).1.iterative_queries [4]).map IterativeQuery.started = some true
      ∧ (lookupA (Rpc.put paramsTriv stEmpty reqC7a).1.iterative_queries [4]).map (fun q => q.request.request_type)
          = some (RequestTypeSpecific.GetValue { target := [4], seq := none, salt := none }))
    ∧ ((Rpc.put paramsTriv stC7b reqC7a).2 = none
      ∧ (Rpc.put paramsTriv stC7b reqC7a).1.iterative_queries = stC7b.iterative_queries
      ∧ (lookupA (Rpc.put paramsTriv stC7b reqC7a).1.put_queries [4]).map PutQuery.started = some false)
    ∧ (lookupA (Rpc.tick paramsTriv cryptoTriv stC7c 0 none).1.put_queries [6]).map PutQuery.started = some true :=
  ⟨(claim_C7 paramsTriv cryptoTriv stC7a reqC7a 0).1 [nodeTok] (by decide) (by decide),
   (claim_C7 paramsTriv cryptoTriv stEmpty reqC7a 0).2.1 (by decide) (by decide) (by decide),
   (claim_C7 paramsTriv cryptoTriv stC7b reqC7a 0).2.2.1 qC7u (by decide) (by decide) (by decide),
   (claim_C7 paramsTriv cryptoTriv stC7c reqC7a 0).2.2.2 [6] qC7d
     (PutQuery.new [6] (PutRequestSpecific.PutImmutable { target := [6] }))
     (by decide) (by decide) (by decide) (by decide) (by decide) (by decide) (fun e a => rfl)⟩
